import Mathlib

/-!
Verification of the cart & coupon server (TypeScript/Express/Prisma).

The definitions below are a shallow embedding of the two service files
(`CouponService.ts` and the final `CartService.ts`) together with the
HTTP-boundary quantity check of `CartController.addItem`.

Modelling conventions:
* Prisma `Decimal` / JS `number` arithmetic is modelled with exact
  rationals (`Rat`); money amounts are integer cents (`Int`).
* The database is a value (`Env` = coupon table + product-restriction
  table + clock); a single user's cart row is threaded explicitly.
* `incrementCouponUsage`'s optimistic-concurrency loop is modelled two
  ways: an interleaving machine (`MState`, `stepThread`) for the
  concurrent claims, and a sequential function for the cart operations,
  which consumes one boolean from an interference oracle per call
  (`true` = the call lost the version race on all of its retries).
-/

attribute [local semireducible] Rat.mul Rat.add Rat.sub Rat.inv

namespace CCS

inductive DiscountType where
  | FIXED
  | PERCENTAGE
deriving DecidableEq, Repr

/-- A row of the `Coupon` table (fields as in `schema.prisma` /
`@prisma/client`).  `discountValue` is the `Decimal` column, modelled
exactly as a rational. -/
structure Coupon where
  id : Nat
  code : String
  discountType : DiscountType
  discountValue : Rat
  expiryDate : Option Int
  maxDiscountCents : Option Int
  minCartTotalCents : Option Int
  minCartItems : Option Int
  maxUses : Option Int
  currentUses : Int
  version : Nat
  autoApply : Bool
deriving DecidableEq, Repr

/-- A cart item joined with its product (`CartItem & \x7b product: Product \x7d`
as used by both services).  The product columns used by the code
(`priceCents`, `name`) are inlined. -/
structure Item where
  productId : Nat
  name : String
  priceCents : Int
  quantity : Int
deriving DecidableEq, Repr

structure Cart where
  id : Nat
  userId : String
  appliedCouponCode : Option String
  items : List Item
deriving DecidableEq, Repr

/-- The persistent store consumed by the services: the coupon table, the
`ProductRestriction` table (pairs `(couponId, productId)`), and the
current time used by the expiry check (`new Date()`). -/
structure Env where
  coupons : List Coupon
  restrictions : List (Nat × Nat)
  now : Int
deriving DecidableEq, Repr

structure ValidationResult where
  valid : Bool
  reason : Option String
deriving DecidableEq, Repr

/-- `prisma.coupon.findUnique(\x7b where: \x7b code \x7d \x7d)`. -/
def findCoupon (env : Env) (code : String) : Option Coupon :=
  env.coupons.find? (fun c => c.code = code)

/-- `prisma.coupon.findUnique(\x7b where: \x7b id \x7d \x7d)`. -/
def findCouponById (env : Env) (id : Nat) : Option Coupon :=
  env.coupons.find? (fun c => c.id = id)

/-- Update the coupon row with the given id. -/
def updateCoupon (env : Env) (id : Nat) (f : Coupon → Coupon) : Env :=
  { env with coupons := env.coupons.map (fun c => if c.id = id then f c else c) }

/-- `coupon.maxUses !== null && coupon.currentUses >= coupon.maxUses`. -/
def capReached (maxUses : Option Int) (currentUses : Int) : Bool :=
  match maxUses with
  | some n => currentUses ≥ n
  | none => false

/-- Subtotal: `cart.items.reduce((acc, item) => acc + item.product.priceCents * item.quantity, 0)`. -/
def subtotalOf (items : List Item) : Int :=
  items.foldl (fun acc it => acc + it.priceCents * it.quantity) 0

/-- Total item count: `cart.items.reduce((acc, item) => acc + item.quantity, 0)`. -/
def totalQtyOf (items : List Item) : Int :=
  items.foldl (fun acc it => acc + it.quantity) 0

/-- `coupon.expiryDate && new Date() > coupon.expiryDate`. -/
def expired (env : Env) (c : Coupon) : Bool :=
  match c.expiryDate with
  | some d => env.now > d
  | none => false

/-- `coupon.minCartItems !== null && totalItems < coupon.minCartItems`. -/
def belowMinItems (c : Coupon) (items : List Item) : Bool :=
  match c.minCartItems with
  | some m => totalQtyOf items < m
  | none => false

/-- `coupon.minCartTotalCents !== null && subtotal < coupon.minCartTotalCents`. -/
def belowMinTotal (c : Coupon) (items : List Item) : Bool :=
  match c.minCartTotalCents with
  | some t => subtotalOf items < t
  | none => false

/-- `CouponService.validateCoupon` (5 checks, first failure wins). -/
def validateCoupon (env : Env) (c : Coupon) (items : List Item) : ValidationResult :=
  if expired env c then
    ⟨false, some "Coupon has expired"⟩
  else if capReached c.maxUses c.currentUses then
    ⟨false, some "Coupon usage limit reached"⟩
  else if belowMinItems c items then
    ⟨false, some "Minimum items required"⟩
  else if belowMinTotal c items then
    ⟨false, some "Minimum cart total required"⟩
  else
    let restr := env.restrictions.filter (fun r => r.fst = c.id)
    if restr.length > 0 ∧
        ¬ items.any (fun it => restr.any (fun r => r.snd = it.productId)) then
      ⟨false, some "Coupon is not applicable to any items in your cart"⟩
    else
      ⟨true, none⟩

/-- The local `calculateDiscount` inside `CouponService.findBestAutoCoupon`
(no final clamp to the subtotal). -/
def calculateDiscount (c : Coupon) (subtotal : Int) : Int :=
  match c.discountType with
  | .FIXED => ⌊c.discountValue * 100⌋
  | .PERCENTAGE =>
    let d : Int := ⌊(subtotal : Rat) * (c.discountValue / 100)⌋
    match c.maxDiscountCents with
    | some m => min d m
    | none => d

/-- `CartService.calculateCouponDiscount`: same per-kind formula followed
by `Math.min(discountCents, subtotalCents)`. -/
def calculateCouponDiscount (c : Coupon) (subtotalCents : Int) : Int :=
  min (calculateDiscount c subtotalCents) subtotalCents

/-- The row update performed by a successful `incrementCouponUsage` write:
`currentUses: \x7b increment: 1 \x7d, version: \x7b increment: 1 \x7d`. -/
def incUse (c : Coupon) : Coupon :=
  { c with currentUses := c.currentUses + 1, version := c.version + 1 }

/-- The row update performed by `decrementCouponUsage`:
`currentUses: \x7b decrement: 1 \x7d, version: \x7b increment: 1 \x7d`. -/
def decUse (c : Coupon) : Coupon :=
  { c with currentUses := c.currentUses - 1, version := c.version + 1 }

/-- `CouponService.decrementCouponUsage` (unconditional). -/
def decrementCouponUsage (env : Env) (id : Nat) : Env :=
  updateCoupon env id decUse

/-- `CouponService.incrementCouponUsage`, sequential view.  The retry loop
is summarised by one oracle boolean per call: `true` means concurrent
writers made every one of the call's (at most 3) conditional writes hit a
version conflict, so the call returns `false` with no write of its own;
`false` (also used when the oracle is exhausted) means no interference,
in which case the first conditional write succeeds because the version
read back equals the stored version.  Returns
`(result, new store, remaining oracle)`. -/
def incrementCouponUsage (env : Env) (id : Nat) (oracle : List Bool) :
    Bool × Env × List Bool :=
  let interf := oracle.headD false
  let rest := oracle.tail
  match findCouponById env id with
  | none => (false, env, rest)
  | some c =>
    if capReached c.maxUses c.currentUses then (false, env, rest)
    else if interf then (false, env, rest)
    else (true, updateCoupon env id incUse, rest)

/-- One iteration of the `for (const coupon of autoCoupons)` loop of
`findBestAutoCoupon`: keep the accumulator unless the coupon validates
and its discount strictly beats the running maximum. -/
def bestStep (env : Env) (items : List Item) (subtotal : Int)
    (acc : Option Coupon × Int) (c : Coupon) : Option Coupon × Int :=
  if (validateCoupon env c items).valid then
    let d := calculateDiscount c subtotal
    if d > acc.snd then (some c, d) else acc
  else acc

/-- The loop of `findBestAutoCoupon`, threading
`(bestCoupon, maxDiscountCents)`. -/
def bestLoop (env : Env) (items : List Item) (subtotal : Int) :
    List Coupon → Option Coupon × Int → Option Coupon × Int
  | [], acc => acc
  | c :: cs, acc => bestLoop env items subtotal cs (bestStep env items subtotal acc c)

/-- `CouponService.findBestAutoCoupon`: scan all `autoApply` coupons,
keep the valid one with the strictly largest `calculateDiscount`,
starting from `maxDiscountCents = -1`. -/
def findBestAutoCoupon (env : Env) (items : List Item) : Option Coupon :=
  (bestLoop env items (subtotalOf items)
    (env.coupons.filter (fun c => c.autoApply)) (none, -1)).fst

/-- Intermediate state of `calculateCartTotal` after the incumbent-coupon
reconciliation: evolved store and oracle, the cart row's persisted
`appliedCouponCode` (`dbCode`), the local `activeCoupon` and
`activeCouponCode` variables. -/
structure AutoOut where
  env : Env
  oracle : List Bool
  dbCode : Option String
  active : Option Coupon
  activeCode : Option String
deriving DecidableEq, Repr

/-- Lines 188-221 of `CartService.calculateCartTotal`: the auto-coupon
block, run whenever no manual coupon is active.  `snapCode` is the
`appliedCouponCode` of the cart snapshot the function was called with
(consulted by the clearing branch), `dbCode` the code currently persisted
on the cart row. -/
def autoPhase (env : Env) (oracle : List Bool) (items : List Item)
    (subtotal : Int) (snapCode dbCode : Option String)
    (active : Option Coupon) (activeCode : Option String) : AutoOut :=
  match findBestAutoCoupon env items with
  | some b =>
    if (match active with
        | none => true
        | some a => b.code ≠ a.code) then
      let currentDiscount := match active with
        | some a => calculateCouponDiscount a subtotal
        | none => 0
      let newDiscount := calculateCouponDiscount b subtotal
      if newDiscount > currentDiscount then
        let env1 := match active with
          | some a => if a.autoApply then decrementCouponUsage env a.id else env
          | none => env
        let r := incrementCouponUsage env1 b.id oracle
        if r.fst then ⟨r.snd.fst, r.snd.snd, some b.code, some b, some b.code⟩
        else ⟨r.snd.fst, r.snd.snd, dbCode, active, activeCode⟩
      else ⟨env, oracle, dbCode, active, activeCode⟩
    else ⟨env, oracle, dbCode, active, activeCode⟩
  | none =>
    if active.isNone ∧ snapCode.isSome then ⟨env, oracle, none, active, activeCode⟩
    else ⟨env, oracle, dbCode, active, activeCode⟩

structure Totals where
  subtotalCents : Int
  discountCents : Int
  finalTotalCents : Int
  appliedCouponCode : Option String
deriving DecidableEq, Repr

structure RespItem where
  productId : Nat
  quantity : Int
  name : String
  priceCents : Int
  totalCents : Int
deriving DecidableEq, Repr

structure CartResponse where
  items : List RespItem
  totals : Totals
deriving DecidableEq, Repr

/-- Result of a cart operation: evolved store and oracle, the user's cart
row after all writes, and the HTTP response body. -/
structure OpResult where
  env : Env
  oracle : List Bool
  cart : Cart
  resp : CartResponse
deriving DecidableEq, Repr

/-- Lines 164-186 of `CartService.calculateCartTotal`: reconcile the
stored `appliedCouponCode` against live validation.  The invalid branch
calls `removeCoupon(userId)`, which decrements the stale coupon's usage,
persists `appliedCouponCode = null` and then (via `getCart`) recomputes
the totals of the cleared cart — whose own reconciliation step is trivial
and whose auto block is `autoPhase` with an empty snapshot code.  Returns
the store/oracle/cart-row state plus the local variables
`activeCoupon`, `activeCouponCode` and `isManualCoupon`. -/
structure RecOut where
  env : Env
  oracle : List Bool
  dbCode : Option String
  active : Option Coupon
  activeCode : Option String
  isManual : Bool
deriving DecidableEq, Repr

def reconcileStored (env : Env) (oracle : List Bool) (cart : Cart) : RecOut :=
  match cart.appliedCouponCode with
  | none => ⟨env, oracle, none, none, none, false⟩
  | some code =>
    match findCoupon env code with
    | none => ⟨env, oracle, none, none, none, false⟩
    | some c =>
      if (validateCoupon env c cart.items).valid then
        ⟨env, oracle, some code, some c, some code, !c.autoApply⟩
      else
        let env1 := decrementCouponUsage env c.id
        let inner := autoPhase env1 oracle cart.items (subtotalOf cart.items)
          none none none none
        ⟨inner.env, inner.oracle, inner.dbCode, none, none, false⟩

/-- Steps 1-2 of `CartService.calculateCartTotal`: reconcile the stored
coupon, then run the auto-coupon block unless a manual coupon is
active. -/
def calcOut (env : Env) (oracle : List Bool) (cart : Cart) : AutoOut :=
  let s1 := reconcileStored env oracle cart
  if s1.isManual then
    ⟨s1.env, s1.oracle, s1.dbCode, s1.active, s1.activeCode⟩
  else
    autoPhase s1.env s1.oracle cart.items (subtotalOf cart.items)
      cart.appliedCouponCode s1.dbCode s1.active s1.activeCode

/-- `CartService.calculateCartTotal` (final version): reconcile the stored
coupon, run the auto-coupon block unless a manual coupon is active,
compute the discount from the active coupon and build the response. -/
def calculateCartTotal (env : Env) (oracle : List Bool) (cart : Cart) : OpResult :=
  let subtotal := subtotalOf cart.items
  let out := calcOut env oracle cart
  let discountCents := match out.active with
    | some c => calculateCouponDiscount c subtotal
    | none => 0
  ⟨out.env, out.oracle, { cart with appliedCouponCode := out.dbCode },
    ⟨cart.items.map (fun i => ⟨i.productId, i.quantity, i.name, i.priceCents,
        i.priceCents * i.quantity⟩),
      ⟨subtotal, discountCents, subtotal - discountCents, out.activeCode⟩⟩⟩

/-- `CartService.getCart` for an existing cart (creation of a missing cart
is modelled by the caller threading the cart row). -/
def getCart (env : Env) (oracle : List Bool) (cart : Cart) : OpResult :=
  calculateCartTotal env oracle cart

/-- `CartService.addItem`: upsert by `(cartId, productId)` — increment the
existing row's quantity, or create a row with exactly the requested
quantity — then recompute via `getCart`.  The product's `name` and
`priceCents` are passed in because the embedding inlines the product join
into `Item`. -/
def addItem (env : Env) (oracle : List Bool) (cart : Cart) (productId : Nat)
    (name : String) (priceCents : Int) (quantity : Int) : OpResult :=
  let items :=
    if cart.items.any (fun it => it.productId = productId) then
      cart.items.map (fun it =>
        if it.productId = productId then
          { it with quantity := it.quantity + quantity }
        else it)
    else
      cart.items ++ [⟨productId, name, priceCents, quantity⟩]
  getCart env oracle { cart with items := items }

/-- `CartService.removeItem`: delete the row if present (a missing row's
delete error is swallowed), then recompute. -/
def removeItem (env : Env) (oracle : List Bool) (cart : Cart)
    (productId : Nat) : OpResult :=
  getCart env oracle
    { cart with items := cart.items.filter (fun it => it.productId ≠ productId) }

/-- `CartService.updateItem`: non-positive quantity delegates to
`removeItem`; otherwise the row is set to the given quantity (a missing
row makes `prisma.cartItem.update` throw, propagated as an error). -/
def updateItem (env : Env) (oracle : List Bool) (cart : Cart)
    (productId : Nat) (quantity : Int) : Except String OpResult :=
  if quantity ≤ 0 then
    .ok (removeItem env oracle cart productId)
  else if cart.items.any (fun it => it.productId = productId) then
    .ok (getCart env oracle
      { cart with items := cart.items.map (fun it =>
          if it.productId = productId then { it with quantity := quantity }
          else it) })
  else
    .error "Record to update not found"

/-- `CartService.applyCoupon`: validate, increment usage, decrement the
previously applied coupon only when its code differs, persist the new
code, recompute. -/
def applyCoupon (env : Env) (oracle : List Bool) (cart : Cart)
    (code : String) : Except String OpResult :=
  match findCoupon env code with
  | none => .error "Coupon not found"
  | some coupon =>
    let v := validateCoupon env coupon cart.items
    if ¬ v.valid then
      .error "Invalid Coupon"
    else
      let r := incrementCouponUsage env coupon.id oracle
      if ¬ r.fst then
        .error "Coupon usage limit reached or collision detected. Please try again."
      else
        let env2 := match cart.appliedCouponCode with
          | some old =>
            if old ≠ code then
              match findCoupon r.snd.fst old with
              | some oldCoupon => decrementCouponUsage r.snd.fst oldCoupon.id
              | none => r.snd.fst
            else r.snd.fst
          | none => r.snd.fst
        .ok (getCart env2 r.snd.snd { cart with appliedCouponCode := some code })

/-- `CartService.removeCoupon`: if a code is stored, decrement that
coupon's usage (when it still exists) and clear the code, then recompute. -/
def removeCoupon (env : Env) (oracle : List Bool) (cart : Cart) : OpResult :=
  match cart.appliedCouponCode with
  | some old =>
    let env1 := match findCoupon env old with
      | some oldCoupon => decrementCouponUsage env oldCoupon.id
      | none => env
    getCart env1 oracle { cart with appliedCouponCode := none }
  | none => getCart env oracle cart

/-- A JSON body field as seen by `CartController.addItem`'s guard
`typeof quantity !== 'number'`: a number, a string, or absent. -/
inductive BodyVal where
  | num (n : Int)
  | str (s : String)
  | absent
deriving DecidableEq, Repr

/-- The quantity part of `CartController.addItem`'s input check: the
request is rejected (`400 Invalid product or quantity`) exactly when the
`quantity` field is not a number. -/
def addItemQuantityAccepted : BodyVal → Bool
  | .num _ => true
  | .str _ => false
  | .absent => false

/-!
Interleaving model of concurrent `incrementCouponUsage` calls on one
coupon row.  Each thread runs the source's retry loop
(`while attempts < 3 { attempts++; read+check; conditional write }`).
A thread performs two kinds of atomic events against the store: the read
(together with the purely local cap check) and the conditional write,
which succeeds exactly when the stored version still equals the version
read — the semantics of `update ... where \x7b id, version \x7d` with
`P2025` treated as a conflict.
-/

/-- Control state of one `incrementCouponUsage` call: `run k` = at the
loop head with `attempts = k`; `pend k v` = attempt `k` read version `v`
and passed the cap check, about to issue the conditional write; `done b`
= returned `b`. -/
inductive TPhase where
  | run (k : Nat)
  | pend (k : Nat) (v : Nat)
  | done (ok : Bool)
deriving DecidableEq, Repr

/-- Shared coupon row (usage counter and version) plus the control state
of every in-flight call. -/
structure MState where
  maxUses : Option Nat
  uses : Nat
  version : Nat
  threads : List TPhase
deriving DecidableEq, Repr

/-- `coupon.maxUses !== null && coupon.currentUses >= coupon.maxUses`
for the machine's row. -/
def capHit (m : Option Nat) (uses : Nat) : Bool :=
  match m with
  | some n => uses ≥ n
  | none => false

/-- One atomic event of thread `tid`; `none` when the thread has no step
(already returned, or no such thread). -/
def stepThread (s : MState) (tid : Nat) : Option MState :=
  match s.threads[tid]? with
  | none => none
  | some (.done _) => none
  | some (.run k) =>
    if k ≥ 3 then
      some { s with threads := s.threads.set tid (.done false) }
    else if capHit s.maxUses s.uses then
      some { s with threads := s.threads.set tid (.done false) }
    else
      some { s with threads := s.threads.set tid (.pend (k + 1) s.version) }
  | some (.pend k v) =>
    if s.version = v then
      some { s with
              uses := s.uses + 1
              version := s.version + 1
              threads := s.threads.set tid (.done true) }
    else
      some { s with threads := s.threads.set tid (.run k) }

/-- Run a schedule (list of thread ids, each performing its next atomic
event); `none` if the schedule names a thread with no step. -/
def runEvents (s : MState) : List Nat → Option MState
  | [] => some s
  | t :: ts =>
    match stepThread s t with
    | some s' => runEvents s' ts
    | none => none

/-- Initial state: fresh coupon with `maxUses = N`, usage `0`, and `n`
concurrent `incrementCouponUsage` calls about to start. -/
def initState (N n : Nat) : MState :=
  ⟨some N, 0, 0, List.replicate n (.run 0)⟩

/-- Number of calls that have returned `true`. -/
def successCount (l : List TPhase) : Nat :=
  (l.filter (fun p => p = TPhase.done true)).length

/-- Every call has returned. -/
def allDone (l : List TPhase) : Bool :=
  l.all (fun p => match p with | .done _ => true | _ => false)

/-!
Spec-side definitions, used only to compare the code's discount
arithmetic against the specification's stated formulas (§4.1).
-/

/-- The spec's per-kind formula: FIXED ↦ `floor(discountValue * 100)`;
PERCENTAGE ↦ `floor(subtotalCents * discountValue / 100)` clamped to
`maxDiscountCents` when set. -/
def specDiscountBase (c : Coupon) (subtotalCents : Int) : Int :=
  match c.discountType with
  | .FIXED => ⌊c.discountValue * 100⌋
  | .PERCENTAGE =>
    let d : Int := ⌊(subtotalCents : Rat) * c.discountValue / 100⌋
    match c.maxDiscountCents with
    | some m => min d m
    | none => d

/-- The spec's full formula: the per-kind result additionally clamped to
`min(result, subtotalCents)`. -/
def specComputeDiscount (c : Coupon) (subtotalCents : Int) : Int :=
  min (specDiscountBase c subtotalCents) subtotalCents

/-- Soundness payload carried through `bestLoop`: whenever a coupon is
held as current best, it is an auto coupon of the store, it validates,
and its ranking discount equals the tracked maximum. -/
def GoodAcc (env : Env) (items : List Item) (sub : Int)
    (acc : Option Coupon × Int) : Prop :=
  ∀ b, acc.fst = some b →
    b ∈ env.coupons ∧ b.autoApply = true ∧
    (validateCoupon env b items).valid = true ∧
    calculateDiscount b sub = acc.snd

/-- The machine invariant behind the cap bound: the stored row never
exceeds the cap, the counter counts exactly the successful calls, and
every pending conditional write either is already stale or read the
current version at a moment when the counter was below the cap. -/
def MInv (N : Nat) (s : MState) : Prop :=
  s.maxUses = some N ∧
  s.uses ≤ N ∧
  successCount s.threads = s.uses ∧
  ∀ (i k v : Nat), s.threads[i]? = some (TPhase.pend k v) →
    v ≤ s.version ∧ (v = s.version → s.uses < N)

/-- Attempt counters never pass the `maxRetries = 3` budget. -/
def attemptsOk : TPhase → Prop
  | .run k => k ≤ 3
  | .pend k _ => k ≤ 3
  | .done _ => True

/-- Well-formed coupon data: non-negative discount value and (when set)
non-negative discount cap — the "valid inputs" of the claim. -/
def couponNonNeg (c : Coupon) : Prop :=
  0 ≤ c.discountValue ∧ 0 ≤ c.maxDiscountCents.getD 0

def envNonNeg (env : Env) : Prop :=
  ∀ c ∈ env.coupons, couponNonNeg c

/-- Well-formed cart rows: non-negative prices and quantities. -/
def itemsNonNeg (items : List Item) : Prop :=
  ∀ it ∈ items, 0 ≤ it.priceCents ∧ 0 ≤ it.quantity

/-- The claim's totals invariant for one operation result. -/
def TotalsOk (r : OpResult) : Prop :=
  r.resp.totals.finalTotalCents =
    r.resp.totals.subtotalCents - r.resp.totals.discountCents ∧
  0 ≤ r.resp.totals.discountCents ∧
  r.resp.totals.discountCents ≤ r.resp.totals.subtotalCents

/-- The discount taken from the active-coupon slot (step 3 of
`calculateCartTotal`). -/
def discountOf (active : Option Coupon) (sub : Int) : Int :=
  match active with
  | some c => calculateCouponDiscount c sub
  | none => 0

end CCS

/-! # Theorems -/

namespace CCS

lemma calculateDiscount_eq_specBase (c : Coupon) (s : Int) :
    calculateDiscount c s = specDiscountBase c s := by
  cases hty : c.discountType with
  | FIXED => simp [calculateDiscount, specDiscountBase, hty]
  | PERCENTAGE =>
    simp only [calculateDiscount, specDiscountBase, hty]
    rw [mul_div_assoc]

/-- C3: `CartService.calculateCouponDiscount` matches the spec's formulas
(per-kind base, cap for percentages, final clamp to the subtotal, hence
never exceeding the subtotal); the local `calculateDiscount` helper inside
`findBestAutoCoupon` computes the same base formula but omits the final
clamp to the subtotal. -/
theorem coupon_discount_formulas (c : Coupon) (s : Int) :
    calculateCouponDiscount c s = specComputeDiscount c s ∧
    calculateCouponDiscount c s ≤ s ∧
    calculateDiscount c s = specDiscountBase c s := by
  refine ⟨?_, min_le_right _ _, calculateDiscount_eq_specBase c s⟩
  rw [calculateCouponDiscount, specComputeDiscount, calculateDiscount_eq_specBase]

/-! ## The optimistic-concurrency machine (C1, C2) -/

lemma get?_set_cases {l : List TPhase} {i j : Nat} {a b : TPhase}
    (h : (l.set j b)[i]? = some a) :
    (i = j ∧ a = b) ∨ (i ≠ j ∧ l[i]? = some a) := by
  induction l generalizing i j with
  | nil => simp [List.set] at h
  | cons x xs ih =>
    cases j with
    | zero =>
      cases i with
      | zero => simp_all
      | succ i => right; simpa using h
    | succ j =>
      cases i with
      | zero => right; simpa using h
      | succ i =>
        have h' : (xs.set j b)[i]? = some a := by simpa using h
        rcases ih h' with h1 | h2
        · exact Or.inl ⟨by omega, h1.2⟩
        · refine Or.inr ⟨by omega, ?_⟩
          simpa using h2.2

lemma successCount_cons (x : TPhase) (l : List TPhase) :
    successCount (x :: l) =
      (if x = TPhase.done true then 1 else 0) + successCount l := by
  by_cases hx : x = TPhase.done true <;> simp [successCount, List.filter, hx] <;>
    omega

lemma successCount_set {l : List TPhase} {i : Nat} {a : TPhase} (b : TPhase)
    (h : l[i]? = some a) (ha : a ≠ TPhase.done true) :
    successCount (l.set i b) =
      successCount l + (if b = TPhase.done true then 1 else 0) := by
  induction l generalizing i with
  | nil => simp at h
  | cons x xs ih =>
    cases i with
    | zero =>
      have hx : x = a := by simpa using h
      subst hx
      show successCount (b :: xs) = successCount (x :: xs) + _
      rw [successCount_cons, successCount_cons, if_neg ha]
      omega
    | succ i =>
      have h' : xs[i]? = some a := by simpa using h
      show successCount (x :: xs.set i b) = successCount (x :: xs) + _
      rw [successCount_cons, successCount_cons, ih h']
      omega

lemma stepThread_run_exhaust {s : MState} {tid k : Nat}
    (hg : s.threads[tid]? = some (TPhase.run k)) (h3 : k ≥ 3) :
    stepThread s tid =
      some { s with threads := s.threads.set tid (.done false) } := by
  simp [stepThread, hg, h3]

lemma stepThread_run_cap {s : MState} {tid k : Nat}
    (hg : s.threads[tid]? = some (TPhase.run k)) (h3 : ¬ k ≥ 3)
    (hcap : capHit s.maxUses s.uses = true) :
    stepThread s tid =
      some { s with threads := s.threads.set tid (.done false) } := by
  simp [stepThread, hg, h3, hcap]

lemma stepThread_run_read {s : MState} {tid k : Nat}
    (hg : s.threads[tid]? = some (TPhase.run k)) (h3 : ¬ k ≥ 3)
    (hcap : capHit s.maxUses s.uses = false) :
    stepThread s tid =
      some { s with threads := s.threads.set tid (.pend (k + 1) s.version) } := by
  simp [stepThread, hg, h3, hcap]

lemma stepThread_cas_ok {s : MState} {tid k v : Nat}
    (hg : s.threads[tid]? = some (TPhase.pend k v)) (hv : s.version = v) :
    stepThread s tid =
      some { s with
              uses := s.uses + 1
              version := s.version + 1
              threads := s.threads.set tid (.done true) } := by
  simp [stepThread, hg, hv]

lemma stepThread_cas_conflict {s : MState} {tid k v : Nat}
    (hg : s.threads[tid]? = some (TPhase.pend k v)) (hv : s.version ≠ v) :
    stepThread s tid =
      some { s with threads := s.threads.set tid (.run k) } := by
  simp [stepThread, hg, hv]

lemma stepThread_MInv {N : Nat} {s s' : MState} {tid : Nat}
    (h : stepThread s tid = some s') (hI : MInv N s) :
    MInv N s' ∧ s'.threads.length = s.threads.length := by
  obtain ⟨hmax, huse, hcnt, hpend⟩ := hI
  cases hg : s.threads[tid]? with
  | none => rw [stepThread, hg] at h; exact absurd h (by simp)
  | some ph =>
    cases ph with
    | done b => rw [stepThread, hg] at h; exact absurd h (by simp)
    | run k =>
      have hrun : TPhase.run k ≠ TPhase.done true := by simp
      by_cases h3 : k ≥ 3
      · rw [stepThread_run_exhaust hg h3, Option.some_inj] at h
        subst h
        refine ⟨⟨hmax, huse, ?_, ?_⟩, by simp⟩
        · rw [successCount_set _ hg hrun]; simpa using hcnt
        · intro i k' v' hi
          rcases get?_set_cases hi with ⟨_, hab⟩ | ⟨_, hl⟩
          · exact absurd hab (by simp)
          · exact hpend i k' v' hl
      · by_cases hcap : capHit s.maxUses s.uses
        · rw [stepThread_run_cap hg h3 hcap, Option.some_inj] at h
          subst h
          refine ⟨⟨hmax, huse, ?_, ?_⟩, by simp⟩
          · rw [successCount_set _ hg hrun]; simpa using hcnt
          · intro i k' v' hi
            rcases get?_set_cases hi with ⟨_, hab⟩ | ⟨_, hl⟩
            · exact absurd hab (by simp)
            · exact hpend i k' v' hl
        · rw [stepThread_run_read hg h3 (by simpa using hcap),
            Option.some_inj] at h
          subst h
          refine ⟨⟨hmax, huse, ?_, ?_⟩, by simp⟩
          · rw [successCount_set _ hg hrun]; simpa using hcnt
          · intro i k' v' hi
            rcases get?_set_cases hi with ⟨_, hab⟩ | ⟨_, hl⟩
            · injection hab with hk hv
              subst hv
              have hun : ¬ s.uses ≥ N := by
                simpa [capHit, hmax] using hcap
              refine ⟨le_refl _, fun _ => ?_⟩
              show s.uses < N
              omega
            · exact hpend i k' v' hl
    | pend k v =>
      by_cases hv : s.version = v
      · rw [stepThread_cas_ok hg hv, Option.some_inj] at h
        subst h
        have hlt : s.uses < N := (hpend tid k v hg).2 hv.symm
        refine ⟨⟨hmax, by simpa using hlt, ?_, ?_⟩, by simp⟩
        · rw [successCount_set _ hg (by simp)]
          simpa using hcnt
        · intro i k' v' hi
          rcases get?_set_cases hi with ⟨_, hab⟩ | ⟨_, hl⟩
          · exact absurd hab (by simp)
          · have hp := hpend i k' v' hl
            exact ⟨by simp; omega, fun hv' => by simp at hv'; omega⟩
      · rw [stepThread_cas_conflict hg hv, Option.some_inj] at h
        subst h
        refine ⟨⟨hmax, huse, ?_, ?_⟩, by simp⟩
        · rw [successCount_set _ hg (by simp)]; simpa using hcnt
        · intro i k' v' hi
          rcases get?_set_cases hi with ⟨_, hab⟩ | ⟨_, hl⟩
          · exact absurd hab (by simp)
          · exact hpend i k' v' hl

lemma runEvents_MInv {N : Nat} {s s' : MState} {events : List Nat}
    (h : runEvents s events = some s') (hI : MInv N s) :
    MInv N s' ∧ s'.threads.length = s.threads.length := by
  induction events generalizing s with
  | nil => cases h; exact ⟨hI, rfl⟩
  | cons t ts ih =>
    unfold runEvents at h
    cases hs : stepThread s t with
    | none => rw [hs] at h; exact absurd h (by simp)
    | some s1 =>
      rw [hs] at h
      obtain ⟨hI1, hlen1⟩ := stepThread_MInv hs hI
      obtain ⟨hI', hlen'⟩ := ih h hI1
      exact ⟨hI', by omega⟩

lemma MInv_init (N n : Nat) : MInv N (initState N n) := by
  refine ⟨rfl, Nat.zero_le _, ?_, ?_⟩
  · simp only [initState, successCount]
    induction n with
    | zero => simp
    | succ m ih => simpa [List.replicate, List.filter] using ih
  · intro i k v hi
    have hm : TPhase.pend k v ∈ List.replicate n (TPhase.run 0) := by
      have h1 := List.getElem?_mem hi
      simpa [initState] using h1
    have h2 : TPhase.pend k v = TPhase.run 0 := List.eq_of_mem_replicate hm
    simp at h2

lemma stepThread_attemptsOk {s s' : MState} {tid : Nat}
    (h : stepThread s tid = some s') (hA : ∀ p ∈ s.threads, attemptsOk p) :
    ∀ p ∈ s'.threads, attemptsOk p := by
  cases hg : s.threads[tid]? with
  | none => rw [stepThread, hg] at h; exact absurd h (by simp)
  | some ph =>
    have hset : ∀ (q : TPhase), attemptsOk q →
        ∀ p ∈ s.threads.set tid q, attemptsOk p := by
      intro q hq p hp
      rcases List.mem_or_eq_of_mem_set hp with hp' | hp'
      · exact hA p hp'
      · exact hp' ▸ hq
    cases ph with
    | done b => rw [stepThread, hg] at h; exact absurd h (by simp)
    | run k =>
      by_cases h3 : k ≥ 3
      · rw [stepThread_run_exhaust hg h3, Option.some_inj] at h
        subst h
        exact hset _ trivial
      · by_cases hcap : capHit s.maxUses s.uses
        · rw [stepThread_run_cap hg h3 hcap, Option.some_inj] at h
          subst h
          exact hset _ trivial
        · rw [stepThread_run_read hg h3 (by simpa using hcap),
            Option.some_inj] at h
          subst h
          exact hset _ (by simp [attemptsOk]; omega)
    | pend k v =>
      have hk : k ≤ 3 := hA _ (List.getElem?_mem hg)
      by_cases hv : s.version = v
      · rw [stepThread_cas_ok hg hv, Option.some_inj] at h
        subst h
        exact hset _ trivial
      · rw [stepThread_cas_conflict hg hv, Option.some_inj] at h
        subst h
        exact hset _ hk

lemma runEvents_attemptsOk {s s' : MState} {events : List Nat}
    (h : runEvents s events = some s') (hA : ∀ p ∈ s.threads, attemptsOk p) :
    ∀ p ∈ s'.threads, attemptsOk p := by
  induction events generalizing s with
  | nil => cases h; exact hA
  | cons t ts ih =>
    unfold runEvents at h
    cases hs : stepThread s t with
    | none => rw [hs] at h; exact absurd h (by simp)
    | some s1 =>
      rw [hs] at h
      exact ih h (stepThread_attemptsOk hs hA)

/-- C2: behaviour of the `incrementCouponUsage` retry loop.
(1) With `maxUses` set and the counter read at or above it, the call
returns `false` immediately: the store (counter and version) is written
back unchanged, only the thread finishes.  (2) A conditional write whose
read version is stale performs no write and loops back to a full
read-check-write attempt.  (3) After 3 attempts the loop exits with
`false`.  (4) A conditional write that sees the stored version equal to
the version it read increments the usage counter by exactly 1 and the
version by exactly 1.  (5) Attempt counters never exceed 3 in any
reachable state. -/
theorem increment_occ_retry_semantics (s : MState) (tid k v N : Nat)
    (n : Nat) (events : List Nat) (s' : MState) :
    (s.maxUses = some N → s.threads[tid]? = some (TPhase.run k) → k < 3 →
      s.uses ≥ N →
      stepThread s tid =
        some { s with threads := s.threads.set tid (TPhase.done false) }) ∧
    (s.threads[tid]? = some (TPhase.pend k v) → s.version ≠ v →
      stepThread s tid =
        some { s with threads := s.threads.set tid (TPhase.run k) }) ∧
    (s.threads[tid]? = some (TPhase.run k) → k ≥ 3 →
      stepThread s tid =
        some { s with threads := s.threads.set tid (TPhase.done false) }) ∧
    (s.threads[tid]? = some (TPhase.pend k v) → s.version = v →
      stepThread s tid =
        some { s with
                uses := s.uses + 1
                version := s.version + 1
                threads := s.threads.set tid (TPhase.done true) }) ∧
    (runEvents (initState N n) events = some s' →
      ∀ (i j w : Nat),
        s'.threads[i]? = some (TPhase.run j) ∨
          s'.threads[i]? = some (TPhase.pend j w) → j ≤ 3) := by
  refine ⟨?_, ?_, ?_, ?_, ?_⟩
  · intro hmax hg h3 hge
    exact stepThread_run_cap hg (by omega) (by simp [capHit, hmax, hge])
  · intro hg hv
    exact stepThread_cas_conflict hg hv
  · intro hg h3
    exact stepThread_run_exhaust hg h3
  · intro hg hv
    exact stepThread_cas_ok hg hv
  · intro hrun i j w hij
    have hA : ∀ p ∈ s'.threads, attemptsOk p := by
      refine runEvents_attemptsOk hrun ?_
      intro p hp
      rw [initState] at hp
      rw [List.eq_of_mem_replicate hp]
      exact Nat.zero_le _
    rcases hij with hg | hg
    · exact hA _ (List.getElem?_mem hg)
    · exact hA _ (List.getElem?_mem hg)

/-- C2 witness instances: the four step shapes at concrete states, and
the attempt bound at the end of a concrete partial run. -/
theorem increment_occ_retry_semantics_witness :
    stepThread ⟨some 1, 1, 0, [TPhase.run 0]⟩ 0 =
      some ⟨some 1, 1, 0, [TPhase.done false]⟩ ∧
    stepThread ⟨some 5, 1, 7, [TPhase.pend 1 3]⟩ 0 =
      some ⟨some 5, 1, 7, [TPhase.run 1]⟩ ∧
    stepThread ⟨some 5, 0, 0, [TPhase.run 3]⟩ 0 =
      some ⟨some 5, 0, 0, [TPhase.done false]⟩ ∧
    stepThread ⟨some 5, 0, 4, [TPhase.pend 2 4]⟩ 0 =
      some ⟨some 5, 1, 5, [TPhase.done true]⟩ ∧
    (1 : Nat) ≤ 3 := by
  refine ⟨?_, ?_, ?_, ?_, ?_⟩
  · exact (increment_occ_retry_semantics ⟨some 1, 1, 0, [TPhase.run 0]⟩ 0 0 0 1
      0 [] ⟨some 1, 0, 0, []⟩).1 rfl rfl (by decide) (by decide)
  · exact (increment_occ_retry_semantics ⟨some 5, 1, 7, [TPhase.pend 1 3]⟩ 0 1 3
      5 0 [] ⟨some 5, 0, 0, []⟩).2.1 rfl (by decide)
  · exact (increment_occ_retry_semantics ⟨some 5, 0, 0, [TPhase.run 3]⟩ 0 3 0 5
      0 [] ⟨some 5, 0, 0, []⟩).2.2.1 rfl (by decide)
  · exact (increment_occ_retry_semantics ⟨some 5, 0, 4, [TPhase.pend 2 4]⟩ 0 2 4
      5 0 [] ⟨some 5, 0, 0, []⟩).2.2.2.1 rfl rfl
  · exact (increment_occ_retry_semantics ⟨some 5, 0, 0, []⟩ 0 0 0 5 1 [0]
      ⟨some 5, 0, 0, [TPhase.pend 1 0]⟩).2.2.2.2 (by decide) 0 1 0
      (Or.inr (by decide))

/-- C1 (amended): starting from a fresh coupon with `maxUses = N` and `n`
concurrent `incrementCouponUsage` calls, after any schedule of atomic
events the usage counter never exceeds `N`, it equals the number of calls
that returned true (no lost updates, no overcounting), and at most
`min(N, n)` calls succeed.  (Exactly `min(N, n)` is not guaranteed — see
the counterexample.) -/
theorem usage_counter_never_exceeds_cap (N n : Nat) (events : List Nat)
    (s' : MState) (h : runEvents (initState N n) events = some s') :
    s'.uses ≤ N ∧ successCount s'.threads = s'.uses ∧
    successCount s'.threads ≤ min N n := by
  obtain ⟨⟨_, huse, hcnt, _⟩, hlen⟩ := runEvents_MInv h (MInv_init N n)
  refine ⟨huse, hcnt, le_min (by omega) ?_⟩
  calc successCount s'.threads ≤ s'.threads.length :=
        List.length_filter_le _ _
    _ = n := by simp [hlen, initState]

/-- C1 witness instance: two calls against `maxUses = 1`, run
sequentially; one succeeds and the counter ends at 1. -/
theorem usage_counter_never_exceeds_cap_witness :
    (⟨some 1, 1, 1, [.done true, .done false]⟩ : MState).uses ≤ 1 ∧
    successCount (⟨some 1, 1, 1, [.done true, .done false]⟩ : MState).threads =
      (⟨some 1, 1, 1, [.done true, .done false]⟩ : MState).uses ∧
    successCount (⟨some 1, 1, 1, [.done true, .done false]⟩ : MState).threads ≤
      min 1 2 :=
  usage_counter_never_exceeds_cap 1 2 [0, 0, 1]
    ⟨some 1, 1, 1, [.done true, .done false]⟩ (by decide)

/-- C1 counterexample: with `maxUses = 10` and 4 concurrent calls there
is a schedule in which every call terminates but only 3 succeed — the
fourth exhausts its 3-attempt retry budget losing races, so "exactly
`min(N, attempts)` succeed" fails. -/
theorem bounded_retry_loses_applications :
    (runEvents (initState 10 4)
        [0, 1, 2, 3, 0, 3, 3, 1, 1, 1, 3, 3, 2, 2, 2, 3, 3]).map
      (fun s => (successCount s.threads, allDone s.threads)) = some (3, true) ∧
    (3 : Nat) ≠ min 10 4 := by
  exact ⟨by decide, by decide⟩

/-! ## The best-auto-coupon selector (C8) -/

/-- `bestStep` case analysis, used by every `bestLoop` lemma. -/

lemma bestStep_invalid {env : Env} {items : List Item} {sub : Int}
    {acc : Option Coupon × Int} {c : Coupon}
    (hv : (validateCoupon env c items).valid = false) :
    bestStep env items sub acc c = acc := by
  simp [bestStep, hv]

lemma bestStep_select {env : Env} {items : List Item} {sub : Int}
    {acc : Option Coupon × Int} {c : Coupon}
    (hv : (validateCoupon env c items).valid = true)
    (hgt : calculateDiscount c sub > acc.snd) :
    bestStep env items sub acc c = (some c, calculateDiscount c sub) := by
  simp [bestStep, hv, hgt]

lemma bestStep_keep {env : Env} {items : List Item} {sub : Int}
    {acc : Option Coupon × Int} {c : Coupon}
    (hv : (validateCoupon env c items).valid = true)
    (hgt : ¬ calculateDiscount c sub > acc.snd) :
    bestStep env items sub acc c = acc := by
  simp only [bestStep, hv, if_true, if_neg hgt]

lemma bestStep_good {env : Env} {items : List Item} {sub : Int}
    {acc : Option Coupon × Int} {c : Coupon}
    (hc : c ∈ env.coupons ∧ c.autoApply = true)
    (hacc : GoodAcc env items sub acc) :
    GoodAcc env items sub (bestStep env items sub acc c) := by
  cases hv : (validateCoupon env c items).valid with
  | false => rw [bestStep_invalid hv]; exact hacc
  | true =>
    by_cases hgt : calculateDiscount c sub > acc.snd
    · rw [bestStep_select hv hgt]
      intro b hb
      cases hb
      exact ⟨hc.1, hc.2, hv, rfl⟩
    · rw [bestStep_keep hv hgt]; exact hacc

lemma bestLoop_good {env : Env} {items : List Item} {sub : Int}
    {l : List Coupon} {acc : Option Coupon × Int}
    (hl : ∀ c ∈ l, c ∈ env.coupons ∧ c.autoApply = true)
    (hacc : GoodAcc env items sub acc) :
    GoodAcc env items sub (bestLoop env items sub l acc) := by
  induction l generalizing acc with
  | nil => exact hacc
  | cons c cs ih =>
    rw [bestLoop]
    exact ih (fun d hd => hl d (List.mem_cons_of_mem _ hd))
      (bestStep_good (hl c (List.mem_cons_self c cs)) hacc)

lemma bestStep_snd_mono {env : Env} {items : List Item} {sub : Int}
    (acc : Option Coupon × Int) (c : Coupon) :
    acc.snd ≤ (bestStep env items sub acc c).snd := by
  cases hv : (validateCoupon env c items).valid with
  | false => rw [bestStep_invalid hv]
  | true =>
    by_cases hgt : calculateDiscount c sub > acc.snd
    · rw [bestStep_select hv hgt]; omega
    · rw [bestStep_keep hv hgt]

lemma bestLoop_snd_mono {env : Env} {items : List Item} {sub : Int}
    (l : List Coupon) (acc : Option Coupon × Int) :
    acc.snd ≤ (bestLoop env items sub l acc).snd := by
  induction l generalizing acc with
  | nil => exact le_refl _
  | cons c cs ih =>
    rw [bestLoop]
    exact le_trans (bestStep_snd_mono acc c) (ih _)

lemma bestLoop_max {env : Env} {items : List Item} {sub : Int}
    (l : List Coupon) (acc : Option Coupon × Int) :
    ∀ c ∈ l, (validateCoupon env c items).valid = true →
      calculateDiscount c sub ≤ (bestLoop env items sub l acc).snd := by
  induction l generalizing acc with
  | nil => simp
  | cons c cs ih =>
    intro d hd hvd
    rw [bestLoop]
    rcases List.mem_cons.mp hd with hdc | hdcs
    · subst hdc
      refine le_trans ?_ (bestLoop_snd_mono cs _)
      by_cases hgt : calculateDiscount d sub > acc.snd
      · rw [bestStep_select hvd hgt]
      · rw [bestStep_keep hvd hgt]; omega
    · exact ih _ d hdcs hvd

lemma bestStep_some_mono {env : Env} {items : List Item} {sub : Int}
    {acc : Option Coupon × Int} (c : Coupon) (h : acc.fst.isSome) :
    (bestStep env items sub acc c).fst.isSome := by
  cases hv : (validateCoupon env c items).valid with
  | false => rw [bestStep_invalid hv]; exact h
  | true =>
    by_cases hgt : calculateDiscount c sub > acc.snd
    · rw [bestStep_select hv hgt]; rfl
    · rw [bestStep_keep hv hgt]; exact h

lemma bestLoop_some_mono {env : Env} {items : List Item} {sub : Int}
    (l : List Coupon) (acc : Option Coupon × Int) (h : acc.fst.isSome) :
    (bestLoop env items sub l acc).fst.isSome := by
  induction l generalizing acc with
  | nil => exact h
  | cons c cs ih =>
    rw [bestLoop]
    exact ih _ (bestStep_some_mono c h)

lemma bestLoop_some_of_valid {env : Env} {items : List Item} {sub : Int}
    {l : List Coupon} {acc : Option Coupon × Int}
    (hinv : acc.fst = none → acc.snd = -1)
    {c : Coupon} (hc : c ∈ l)
    (hv : (validateCoupon env c items).valid = true)
    (hd : 0 ≤ calculateDiscount c sub) :
    (bestLoop env items sub l acc).fst.isSome := by
  induction l generalizing acc with
  | nil => simp at hc
  | cons x xs ih =>
    rw [bestLoop]
    rcases List.mem_cons.mp hc with hcx | hcxs
    · subst hcx
      cases hacc : acc.fst with
      | some a =>
        exact bestLoop_some_mono _ _
          (bestStep_some_mono _ (by simp [hacc]))
      | none =>
        have hgt : calculateDiscount c sub > acc.snd := by
          rw [hinv hacc]; omega
        refine bestLoop_some_mono _ _ ?_
        rw [bestStep_select hv hgt]
        rfl
    · refine ih ?_ hcxs
      intro hnone
      cases hvx : (validateCoupon env x items).valid with
      | false =>
        rw [bestStep_invalid hvx] at hnone ⊢
        exact hinv hnone
      | true =>
        by_cases hgt : calculateDiscount x sub > acc.snd
        · rw [bestStep_select hvx hgt] at hnone
          simp at hnone
        · rw [bestStep_keep hvx hgt] at hnone ⊢
          exact hinv hnone

lemma bestLoop_all_invalid {env : Env} {items : List Item} {sub : Int}
    {l : List Coupon} (acc : Option Coupon × Int)
    (h : ∀ c ∈ l, (validateCoupon env c items).valid = false) :
    bestLoop env items sub l acc = acc := by
  induction l with
  | nil => rfl
  | cons c cs ih =>
    rw [bestLoop, bestStep_invalid (h c (List.mem_cons_self c cs))]
    exact ih (fun d hd => h d (List.mem_cons_of_mem _ hd))

/-- C8 (amended): provided every validating auto coupon has a
non-negative ranking discount, `findBestAutoCoupon` returns `none` when
no auto-apply coupon validates, and otherwise returns an auto-apply
coupon that validates and whose `calculateDiscount` against the cart's
subtotal is maximal among all validating auto-apply coupons. -/
theorem best_auto_coupon_maximal (env : Env) (items : List Item)
    (hnn : ∀ c ∈ env.coupons, c.autoApply = true →
      (validateCoupon env c items).valid = true →
      0 ≤ calculateDiscount c (subtotalOf items)) :
    ((∀ c ∈ env.coupons, c.autoApply = true →
        (validateCoupon env c items).valid = false) →
      findBestAutoCoupon env items = none) ∧
    (∀ r, findBestAutoCoupon env items = some r →
      r ∈ env.coupons ∧ r.autoApply = true ∧
      (validateCoupon env r items).valid = true ∧
      ∀ c ∈ env.coupons, c.autoApply = true →
        (validateCoupon env c items).valid = true →
        calculateDiscount c (subtotalOf items) ≤
          calculateDiscount r (subtotalOf items)) ∧
    (∀ c ∈ env.coupons, c.autoApply = true →
      (validateCoupon env c items).valid = true →
      (findBestAutoCoupon env items).isSome) := by
  have hfil : ∀ c ∈ env.coupons.filter (fun c => c.autoApply),
      c ∈ env.coupons ∧ c.autoApply = true := by
    intro c hc
    exact ⟨(List.mem_filter.mp hc).1, (List.mem_filter.mp hc).2⟩
  refine ⟨?_, ?_, ?_⟩
  · intro hall
    rw [findBestAutoCoupon, bestLoop_all_invalid _ ?_]
    intro c hc
    have := hfil c hc
    exact hall c this.1 this.2
  · intro r hr
    have hgood := @bestLoop_good env items (subtotalOf items)
      (env.coupons.filter (fun c => c.autoApply))
      (none, -1) hfil (by intro b hb; simp at hb)
    rw [findBestAutoCoupon] at hr
    obtain ⟨hmem, hauto, hvalid, hdisc⟩ := hgood r hr
    refine ⟨hmem, hauto, hvalid, ?_⟩
    intro c hc hca hcv
    have hmax := @bestLoop_max env items (subtotalOf items)
      (env.coupons.filter (fun c => c.autoApply)) (none, -1) c
      (List.mem_filter.mpr ⟨hc, by simp [hca]⟩) hcv
    omega
  · intro c hc hca hcv
    rw [findBestAutoCoupon]
    exact bestLoop_some_of_valid (by intro; rfl)
      (List.mem_filter.mpr ⟨hc, by simp [hca]⟩) hcv
      (hnn c hc hca hcv)

/-- C8 witness instance: a store with one validating auto coupon (FIXED
value 5); the selector returns it. -/
theorem best_auto_coupon_maximal_witness :
    (findBestAutoCoupon
      ⟨[⟨4, "AUTO5", .FIXED, 5, none, none, none, none, none, 0, 0, true⟩], [], 0⟩
      [⟨1, "P", 5000, 1⟩]).isSome :=
  (best_auto_coupon_maximal
    ⟨[⟨4, "AUTO5", .FIXED, 5, none, none, none, none, none, 0, 0, true⟩], [], 0⟩
    [⟨1, "P", 5000, 1⟩] (by decide)).2.2
    ⟨4, "AUTO5", .FIXED, 5, none, none, none, none, none, 0, 0, true⟩
    (by decide) (by decide) (by decide)

/-- C8 counterexample: a store whose only auto coupon validates but has a
FIXED value of −1; its ranking discount (−100) never beats the `-1`
initialisation, so the selector returns `none` even though an auto-apply
coupon passes validation — against the claim's "otherwise returns a
validating auto-apply coupon". -/
theorem auto_selector_misses_negative_discount :
    (validateCoupon
        ⟨[⟨1, "NEG", .FIXED, -1, none, none, none, none, none, 0, 0, true⟩], [], 0⟩
        ⟨1, "NEG", .FIXED, -1, none, none, none, none, none, 0, 0, true⟩
        []).valid = true ∧
    findBestAutoCoupon
      ⟨[⟨1, "NEG", .FIXED, -1, none, none, none, none, none, 0, 0, true⟩], [], 0⟩
      [] = none := by
  exact ⟨by decide, by decide⟩

/-- C3 counterexample: the discount computation used for ranking auto
coupons (`calculateDiscount` inside `findBestAutoCoupon`) is not clamped
to the subtotal: a FIXED coupon of value 20 on a 1000-cent subtotal
yields 2000 > 1000. -/
theorem discount_helper_not_clamped :
    calculateDiscount
      ⟨1, "F20", .FIXED, 20, none, none, none, none, none, 0, 0, false⟩ 1000
      = 2000 ∧
    ¬ ((2000 : Int) ≤ 1000) := by
  exact ⟨by decide, by decide⟩

/-! ## Item operations and the HTTP boundary (C10) -/

lemma calculateCartTotal_items (env : Env) (oracle : List Bool) (cart : Cart) :
    (calculateCartTotal env oracle cart).cart.items = cart.items := rfl

/-- C10: `addItem` performs no positivity check: any integer quantity,
zero and negatives included, is stored as-is for a fresh product row or
added to the existing row's quantity; the delete-on-non-positive rule
lives only in `updateItem` (which delegates to `removeItem`); and the
HTTP boundary accepts every numeric quantity, rejecting only non-numeric
ones. -/
theorem add_item_no_positivity_check :
    (∀ (env : Env) (oracle : List Bool) (cart : Cart) (pid : Nat)
        (nm : String) (pr q : Int),
      cart.items.any (fun it => it.productId = pid) = false →
      (addItem env oracle cart pid nm pr q).cart.items =
        cart.items ++ [⟨pid, nm, pr, q⟩]) ∧
    (∀ (env : Env) (oracle : List Bool) (cart : Cart) (pid : Nat)
        (nm : String) (pr q : Int),
      cart.items.any (fun it => it.productId = pid) = true →
      (addItem env oracle cart pid nm pr q).cart.items =
        cart.items.map (fun it =>
          if it.productId = pid then
            { it with quantity := it.quantity + q }
          else it)) ∧
    (∀ (env : Env) (oracle : List Bool) (cart : Cart) (pid : Nat) (q : Int),
      q ≤ 0 →
      updateItem env oracle cart pid q = .ok (removeItem env oracle cart pid)) ∧
    (∀ q : Int, addItemQuantityAccepted (.num q) = true) ∧
    (∀ s : String, addItemQuantityAccepted (.str s) = false) ∧
    addItemQuantityAccepted .absent = false := by
  refine ⟨?_, ?_, ?_, fun q => rfl, fun s => rfl, rfl⟩
  · intro env oracle cart pid nm pr q h
    rw [addItem, getCart, calculateCartTotal_items]
    simp [h]
  · intro env oracle cart pid nm pr q h
    rw [addItem, getCart, calculateCartTotal_items]
    simp [h]
  · intro env oracle cart pid q hq
    rw [updateItem, if_pos hq]

/-- C10 witness instance: adding quantity −3 for a fresh product stores
exactly −3; adding −1 to an existing row of quantity 2 stores 1; updating
to 0 is the `removeItem` path; the boundary accepts −3 and 0 and rejects
a string and an absent field. -/
theorem add_item_no_positivity_check_witness :
    (addItem ⟨[], [], 0⟩ [] ⟨1, "u", none, []⟩ 7 "P" 100 (-3)).cart.items =
      [⟨7, "P", 100, -3⟩] ∧
    (addItem ⟨[], [], 0⟩ [] ⟨1, "u", none, [⟨7, "P", 100, 2⟩]⟩ 7 "P" 100
        (-1)).cart.items = [⟨7, "P", 100, 1⟩] ∧
    updateItem ⟨[], [], 0⟩ [] ⟨1, "u", none, [⟨7, "P", 100, 2⟩]⟩ 7 0 =
      .ok (removeItem ⟨[], [], 0⟩ [] ⟨1, "u", none, [⟨7, "P", 100, 2⟩]⟩ 7) ∧
    addItemQuantityAccepted (.num (-3)) = true ∧
    addItemQuantityAccepted (.num 0) = true ∧
    addItemQuantityAccepted (.str "two") = false ∧
    addItemQuantityAccepted .absent = false := by
  refine ⟨?_, ?_, ?_, ?_, ?_, ?_, ?_⟩
  · rw [add_item_no_positivity_check.1 ⟨[], [], 0⟩ [] ⟨1, "u", none, []⟩ 7 "P"
      100 (-3) (by decide)]
    rfl
  · rw [add_item_no_positivity_check.2.1 ⟨[], [], 0⟩ []
      ⟨1, "u", none, [⟨7, "P", 100, 2⟩]⟩ 7 "P" 100 (-1) (by decide)]
    rfl
  · exact add_item_no_positivity_check.2.2.1 ⟨[], [], 0⟩ []
      ⟨1, "u", none, [⟨7, "P", 100, 2⟩]⟩ 7 0 (by decide)
  · exact add_item_no_positivity_check.2.2.2.1 (-3)
  · exact add_item_no_positivity_check.2.2.2.1 0
  · exact add_item_no_positivity_check.2.2.2.2.1 "two"
  · exact add_item_no_positivity_check.2.2.2.2.2

/-! ## Manual coupons are never displaced (C5) -/

/-- The reconciliation outcome for a stored, existing, validating manual
coupon: nothing is written and the totals come from that coupon. -/
lemma calcTotal_manual_active (env : Env) (oracle : List Bool)
    (cart : Cart) (code : String) (c : Coupon)
    (hstored : cart.appliedCouponCode = some code)
    (hfind : findCoupon env code = some c)
    (hmanual : c.autoApply = false)
    (hvalid : (validateCoupon env c cart.items).valid = true) :
    calculateCartTotal env oracle cart =
      ⟨env, oracle, cart,
        ⟨cart.items.map (fun i => ⟨i.productId, i.quantity, i.name,
            i.priceCents, i.priceCents * i.quantity⟩),
          ⟨subtotalOf cart.items,
            calculateCouponDiscount c (subtotalOf cart.items),
            subtotalOf cart.items -
              calculateCouponDiscount c (subtotalOf cart.items),
            some code⟩⟩⟩ := by
  obtain ⟨cid, cuser, ccode, citems⟩ := cart
  simp only [Cart.appliedCouponCode] at hstored
  subst hstored
  rw [calculateCartTotal, calcOut, reconcileStored]
  simp only [hfind, hvalid, if_true]
  rw [hmanual]
  rfl

/-- C5: when the stored code refers to an existing coupon with
`autoApply = false` that passes validation against the current cart
snapshot, the total computation keeps that manual coupon active and skips
the auto-coupon block entirely: the store, the oracle (no usage counter
is touched) and the cart row are returned unchanged, and the totals are
computed from the manual coupon — no auto candidate, however large its
discount, can displace it. -/
theorem manual_coupon_never_displaced (env : Env) (oracle : List Bool)
    (cart : Cart) (code : String) (c : Coupon)
    (hstored : cart.appliedCouponCode = some code)
    (hfind : findCoupon env code = some c)
    (hmanual : c.autoApply = false)
    (hvalid : (validateCoupon env c cart.items).valid = true) :
    calculateCartTotal env oracle cart =
      ⟨env, oracle, cart,
        ⟨cart.items.map (fun i => ⟨i.productId, i.quantity, i.name,
            i.priceCents, i.priceCents * i.quantity⟩),
          ⟨subtotalOf cart.items,
            calculateCouponDiscount c (subtotalOf cart.items),
            subtotalOf cart.items -
              calculateCouponDiscount c (subtotalOf cart.items),
            some code⟩⟩⟩ :=
  calcTotal_manual_active env oracle cart code c hstored hfind hmanual hvalid

/-- C5 witness instance: a valid stored manual FIXED-20 coupon "M" is
kept even though a valid auto FIXED-50 coupon "A" would give a larger
discount; store, oracle and cart row come back unchanged. -/
theorem manual_coupon_never_displaced_witness :
    calculateCartTotal
      ⟨[⟨1, "M", .FIXED, 20, none, none, none, none, none, 0, 0, false⟩,
        ⟨2, "A", .FIXED, 50, none, none, none, none, none, 0, 0, true⟩], [], 0⟩
      [] ⟨1, "u", some "M", [⟨1, "P", 5000, 1⟩]⟩ =
      ⟨⟨[⟨1, "M", .FIXED, 20, none, none, none, none, none, 0, 0, false⟩,
          ⟨2, "A", .FIXED, 50, none, none, none, none, none, 0, 0, true⟩], [], 0⟩,
        [], ⟨1, "u", some "M", [⟨1, "P", 5000, 1⟩]⟩,
        ⟨[⟨1, 1, "P", 5000, 5000⟩], ⟨5000, 2000, 3000, some "M"⟩⟩⟩ := by
  rw [manual_coupon_never_displaced
    ⟨[⟨1, "M", .FIXED, 20, none, none, none, none, none, 0, 0, false⟩,
      ⟨2, "A", .FIXED, 50, none, none, none, none, none, 0, 0, true⟩], [], 0⟩
    [] ⟨1, "u", some "M", [⟨1, "P", 5000, 1⟩]⟩ "M"
    ⟨1, "M", .FIXED, 20, none, none, none, none, none, 0, 0, false⟩
    rfl (by decide) rfl (by decide)]
  decide

/-! ## Reconciliation path lemmas (C6, C7, C9) -/

lemma incrementCouponUsage_fail_env {env : Env} {id : Nat} {oracle : List Bool}
    (h : (incrementCouponUsage env id oracle).fst = false) :
    (incrementCouponUsage env id oracle).snd.fst = env := by
  cases hf : findCouponById env id with
  | none => simp [incrementCouponUsage, hf]
  | some c =>
    by_cases hcap : capReached c.maxUses c.currentUses
    · simp [incrementCouponUsage, hf, hcap]
    · cases oracle with
      | nil =>
        rw [incrementCouponUsage] at h
        simp [hf, hcap] at h
      | cons o os =>
        cases o
        · rw [incrementCouponUsage] at h
          simp [hf, hcap] at h
        · simp [incrementCouponUsage, hf, hcap]

lemma reconcileStored_valid {env : Env} {oracle : List Bool} {cart : Cart}
    {code : String} {c : Coupon}
    (hstored : cart.appliedCouponCode = some code)
    (hfind : findCoupon env code = some c)
    (hvalid : (validateCoupon env c cart.items).valid = true) :
    reconcileStored env oracle cart =
      ⟨env, oracle, some code, some c, some code, !c.autoApply⟩ := by
  rw [reconcileStored, hstored]
  simp only [hfind, hvalid, if_true]

lemma reconcileStored_missing {env : Env} {oracle : List Bool} {cart : Cart}
    {code : String}
    (hstored : cart.appliedCouponCode = some code)
    (hmiss : findCoupon env code = none) :
    reconcileStored env oracle cart = ⟨env, oracle, none, none, none, false⟩ := by
  rw [reconcileStored, hstored]
  simp only [hmiss]

lemma reconcileStored_invalid {env : Env} {oracle : List Bool} {cart : Cart}
    {code : String} {c : Coupon}
    (hstored : cart.appliedCouponCode = some code)
    (hfind : findCoupon env code = some c)
    (hinvalid : (validateCoupon env c cart.items).valid = false) :
    reconcileStored env oracle cart =
      ⟨(autoPhase (decrementCouponUsage env c.id) oracle cart.items
          (subtotalOf cart.items) none none none none).env,
        (autoPhase (decrementCouponUsage env c.id) oracle cart.items
          (subtotalOf cart.items) none none none none).oracle,
        (autoPhase (decrementCouponUsage env c.id) oracle cart.items
          (subtotalOf cart.items) none none none none).dbCode,
        none, none, false⟩ := by
  rw [reconcileStored, hstored]
  simp only [hfind, hinvalid]
  rfl

/-- One-step description of the auto block when the incumbent is an auto
coupon, a distinct strictly better candidate exists, and the candidate's
usage increment fails: the incumbent's usage has already been decremented
and is not restored. -/
lemma autoPhase_swap_fail {env : Env} {oracle : List Bool}
    {items : List Item} {sub : Int} {snap db : Option String}
    {a b : Coupon} {ac : Option String}
    (hbest : findBestAutoCoupon env items = some b)
    (hne : ¬ b.code = a.code)
    (hgt : calculateCouponDiscount a sub < calculateCouponDiscount b sub)
    (ha : a.autoApply = true)
    (hfail : (incrementCouponUsage (decrementCouponUsage env a.id) b.id
      oracle).fst = false) :
    autoPhase env oracle items sub snap db (some a) ac =
      ⟨decrementCouponUsage env a.id,
        (incrementCouponUsage (decrementCouponUsage env a.id) b.id
          oracle).snd.snd,
        db, some a, ac⟩ := by
  simp only [autoPhase, hbest, ha, hne, hgt, hfail, decide_eq_true_eq, ne_eq,
    not_false_iff, if_true, Bool.false_eq_true, if_false, decide_True]
  rw [incrementCouponUsage_fail_env hfail]

/-- C6 (amended): during total computation, when the incumbent is an
auto coupon holding the slot, a strictly better distinct auto candidate
is found, and the candidate's usage increment fails (race lost), the
cart's stored applied-coupon code still names the incumbent and the
totals still use the incumbent's discount — but the store comes back
with the incumbent's usage decremented by the pre-swap decrement, which
is not rolled back. -/
theorem race_lost_keeps_incumbent_code (env : Env) (oracle : List Bool)
    (cart : Cart) (code : String) (a b : Coupon)
    (hstored : cart.appliedCouponCode = some code)
    (hfind : findCoupon env code = some a)
    (hauto : a.autoApply = true)
    (hvalid : (validateCoupon env a cart.items).valid = true)
    (hbest : findBestAutoCoupon env cart.items = some b)
    (hne : ¬ b.code = a.code)
    (hgt : calculateCouponDiscount a (subtotalOf cart.items) <
      calculateCouponDiscount b (subtotalOf cart.items))
    (hfail : (incrementCouponUsage (decrementCouponUsage env a.id) b.id
      oracle).fst = false) :
    (calculateCartTotal env oracle cart).cart.appliedCouponCode = some code ∧
    (calculateCartTotal env oracle cart).resp.totals.appliedCouponCode =
      some code ∧
    (calculateCartTotal env oracle cart).resp.totals.discountCents =
      calculateCouponDiscount a (subtotalOf cart.items) ∧
    (calculateCartTotal env oracle cart).env =
      decrementCouponUsage env a.id := by
  rw [calculateCartTotal, calcOut, reconcileStored_valid hstored hfind hvalid]
  simp only [hauto, Bool.not_true, Bool.false_eq_true, if_false]
  rw [hstored, autoPhase_swap_fail hbest hne hgt hauto hfail]
  exact ⟨rfl, rfl, rfl, rfl⟩

/-- C6 witness instance: incumbent auto FIXED-5 coupon "A" (1 use),
candidate auto FIXED-10 coupon "B", increment of "B" loses the race
(oracle `[true]`). -/
theorem race_lost_keeps_incumbent_code_witness :
    (calculateCartTotal
        ⟨[⟨10, "A", .FIXED, 5, none, none, none, none, none, 1, 0, true⟩,
          ⟨11, "B", .FIXED, 10, none, none, none, none, none, 0, 0, true⟩], [], 0⟩
        [true] ⟨1, "u", some "A", [⟨1, "P", 5000, 1⟩]⟩).cart.appliedCouponCode =
      some "A" ∧
    (calculateCartTotal
        ⟨[⟨10, "A", .FIXED, 5, none, none, none, none, none, 1, 0, true⟩,
          ⟨11, "B", .FIXED, 10, none, none, none, none, none, 0, 0, true⟩], [], 0⟩
        [true]
        ⟨1, "u", some "A", [⟨1, "P", 5000, 1⟩]⟩).resp.totals.appliedCouponCode =
      some "A" ∧
    (calculateCartTotal
        ⟨[⟨10, "A", .FIXED, 5, none, none, none, none, none, 1, 0, true⟩,
          ⟨11, "B", .FIXED, 10, none, none, none, none, none, 0, 0, true⟩], [], 0⟩
        [true]
        ⟨1, "u", some "A", [⟨1, "P", 5000, 1⟩]⟩).resp.totals.discountCents =
      calculateCouponDiscount
        ⟨10, "A", .FIXED, 5, none, none, none, none, none, 1, 0, true⟩
        (subtotalOf [⟨1, "P", 5000, 1⟩]) ∧
    (calculateCartTotal
        ⟨[⟨10, "A", .FIXED, 5, none, none, none, none, none, 1, 0, true⟩,
          ⟨11, "B", .FIXED, 10, none, none, none, none, none, 0, 0, true⟩], [], 0⟩
        [true] ⟨1, "u", some "A", [⟨1, "P", 5000, 1⟩]⟩).env =
      decrementCouponUsage
        ⟨[⟨10, "A", .FIXED, 5, none, none, none, none, none, 1, 0, true⟩,
          ⟨11, "B", .FIXED, 10, none, none, none, none, none, 0, 0, true⟩], [], 0⟩
        10 :=
  race_lost_keeps_incumbent_code
    ⟨[⟨10, "A", .FIXED, 5, none, none, none, none, none, 1, 0, true⟩,
      ⟨11, "B", .FIXED, 10, none, none, none, none, none, 0, 0, true⟩], [], 0⟩
    [true] ⟨1, "u", some "A", [⟨1, "P", 5000, 1⟩]⟩ "A"
    ⟨10, "A", .FIXED, 5, none, none, none, none, none, 1, 0, true⟩
    ⟨11, "B", .FIXED, 10, none, none, none, none, none, 0, 0, true⟩
    rfl (by decide) rfl (by decide) (by decide) (by decide) (by decide)
    (by decide)

/-- C6 counterexample: in the same race-lost scenario the incumbent's
usage counter does NOT keep its pre-swap value: it was 1 before the
computation and 0 after, refuting "the incumbent coupon's usage counter
equals its value from before the attempted swap". -/
theorem race_lost_decrements_incumbent_usage :
    (calculateCartTotal
        ⟨[⟨10, "A", .FIXED, 5, none, none, none, none, none, 1, 0, true⟩,
          ⟨11, "B", .FIXED, 10, none, none, none, none, none, 0, 0, true⟩], [], 0⟩
        [true] ⟨1, "u", some "A", [⟨1, "P", 5000, 1⟩]⟩).cart.appliedCouponCode =
      some "A" ∧
    ((calculateCartTotal
        ⟨[⟨10, "A", .FIXED, 5, none, none, none, none, none, 1, 0, true⟩,
          ⟨11, "B", .FIXED, 10, none, none, none, none, none, 0, 0, true⟩], [], 0⟩
        [true] ⟨1, "u", some "A", [⟨1, "P", 5000, 1⟩]⟩).env.coupons.map
        (fun c => (c.code, c.currentUses))) = [("A", 0), ("B", 0)] ∧
    (findCoupon
        ⟨[⟨10, "A", .FIXED, 5, none, none, none, none, none, 1, 0, true⟩,
          ⟨11, "B", .FIXED, 10, none, none, none, none, none, 0, 0, true⟩], [], 0⟩
        "A").map (fun c => c.currentUses) = some 1 ∧
    (0 : Int) ≠ 1 := by
  exact ⟨by decide, by decide, by decide, by decide⟩

lemma autoPhase_best_none {env : Env} {oracle : List Bool}
    {items : List Item} {sub : Int} {snap db : Option String}
    {active : Option Coupon} {ac : Option String}
    (h : findBestAutoCoupon env items = none) :
    autoPhase env oracle items sub snap db active ac =
      (if active.isNone ∧ snap.isSome then ⟨env, oracle, none, active, ac⟩
        else ⟨env, oracle, db, active, ac⟩) := by
  rw [autoPhase.eq_def, h]

lemma autoPhase_snap_irrelevant (env : Env) (oracle : List Bool)
    (items : List Item) (sub : Int) (snap snap' : Option String)
    (active : Option Coupon) (ac : Option String) :
    autoPhase env oracle items sub snap none active ac =
      autoPhase env oracle items sub snap' none active ac := by
  rw [autoPhase.eq_def, autoPhase.eq_def]
  cases findBestAutoCoupon env items with
  | some b => rfl
  | none =>
    cases active with
    | some a => simp
    | none => cases snap <;> cases snap' <;> simp

/-- C7 (amended): a stored applied-coupon code that refers to a missing
coupon makes the total computation behave exactly as if no code were
stored (the dead code is cleared and never used); a stored code whose
coupon exists but fails validation is cleared and the coupon's usage
decremented before auto re-evaluation, and when no auto candidate
validates the computation ends with the code absent, a zero discount and
no error — the correction is silent (the computation returns a normal
response; auto re-evaluation may afterwards adopt and persist a fresh
auto coupon, see the counterexample). -/
theorem stale_coupon_cleared_silently (env : Env) (oracle : List Bool)
    (cart : Cart) (code : String) :
    (cart.appliedCouponCode = some code → findCoupon env code = none →
      calculateCartTotal env oracle cart =
        calculateCartTotal env oracle
          { cart with appliedCouponCode := none }) ∧
    (∀ c : Coupon, cart.appliedCouponCode = some code →
      findCoupon env code = some c →
      (validateCoupon env c cart.items).valid = false →
      findBestAutoCoupon (decrementCouponUsage env c.id) cart.items = none →
      (calculateCartTotal env oracle cart).cart.appliedCouponCode = none ∧
      (calculateCartTotal env oracle cart).env =
        decrementCouponUsage env c.id ∧
      (calculateCartTotal env oracle cart).oracle = oracle ∧
      (calculateCartTotal env oracle cart).resp.totals.discountCents = 0 ∧
      (calculateCartTotal env oracle cart).resp.totals.appliedCouponCode =
        none) := by
  constructor
  · intro h1 h2
    obtain ⟨cid, cuser, ccode, citems⟩ := cart
    simp only [Cart.appliedCouponCode] at h1
    subst h1
    rw [calculateCartTotal, calculateCartTotal, calcOut, calcOut,
      reconcileStored_missing rfl h2]
    rw [show reconcileStored env oracle ⟨cid, cuser, none, citems⟩ =
      ⟨env, oracle, none, none, none, false⟩ from rfl]
    simp only [Bool.false_eq_true, if_false]
    rw [autoPhase_snap_irrelevant env oracle citems
      (subtotalOf citems) (some code) none none none]
  · intro c h1 h2 h3 h4
    rw [calculateCartTotal, calcOut, reconcileStored_invalid h1 h2 h3,
      autoPhase_best_none h4, h1]
    simp only [Option.isNone_none, Option.isSome_none, Bool.false_eq_true,
      false_and, and_false, if_false, Option.isSome_some, and_true, if_true]
    rw [autoPhase_best_none h4]
    simp only [Option.isNone_none, Option.isSome_some, and_self, if_true]

/-- C7 witness instances: a cart storing a code with no matching coupon
computes totals exactly as a cart with no stored code; a cart storing an
existing-but-invalid coupon (minimum total not met) in a store with no
auto coupons ends with the code absent, the coupon's usage decremented,
zero discount and a normal response. -/
theorem stale_coupon_cleared_silently_witness :
    calculateCartTotal ⟨[], [], 0⟩ [] ⟨1, "u", some "GONE", []⟩ =
      calculateCartTotal ⟨[], [], 0⟩ [] ⟨1, "u", none, []⟩ ∧
    ((calculateCartTotal
        ⟨[⟨20, "D", .FIXED, 5, none, none, some 100000, none, none, 1, 0,
          false⟩], [], 0⟩
        [] ⟨1, "u", some "D", [⟨1, "P", 5000, 1⟩]⟩).cart.appliedCouponCode =
      none ∧
    (calculateCartTotal
        ⟨[⟨20, "D", .FIXED, 5, none, none, some 100000, none, none, 1, 0,
          false⟩], [], 0⟩
        [] ⟨1, "u", some "D", [⟨1, "P", 5000, 1⟩]⟩).env =
      decrementCouponUsage
        ⟨[⟨20, "D", .FIXED, 5, none, none, some 100000, none, none, 1, 0,
          false⟩], [], 0⟩ 20 ∧
    (calculateCartTotal
        ⟨[⟨20, "D", .FIXED, 5, none, none, some 100000, none, none, 1, 0,
          false⟩], [], 0⟩
        [] ⟨1, "u", some "D", [⟨1, "P", 5000, 1⟩]⟩).oracle = [] ∧
    (calculateCartTotal
        ⟨[⟨20, "D", .FIXED, 5, none, none, some 100000, none, none, 1, 0,
          false⟩], [], 0⟩
        [] ⟨1, "u", some "D", [⟨1, "P", 5000, 1⟩]⟩).resp.totals.discountCents =
      0 ∧
    (calculateCartTotal
        ⟨[⟨20, "D", .FIXED, 5, none, none, some 100000, none, none, 1, 0,
          false⟩], [], 0⟩
        []
        ⟨1, "u", some "D",
          [⟨1, "P", 5000, 1⟩]⟩).resp.totals.appliedCouponCode = none) :=
  ⟨(stale_coupon_cleared_silently ⟨[], [], 0⟩ [] ⟨1, "u", some "GONE", []⟩
      "GONE").1 rfl (by decide),
    (stale_coupon_cleared_silently
      ⟨[⟨20, "D", .FIXED, 5, none, none, some 100000, none, none, 1, 0,
        false⟩], [], 0⟩
      [] ⟨1, "u", some "D", [⟨1, "P", 5000, 1⟩]⟩ "D").2
      ⟨20, "D", .FIXED, 5, none, none, some 100000, none, none, 1, 0, false⟩
      rfl (by decide) (by decide) (by decide)⟩

/-- C7 counterexample: clearing is not "to absent" as an end state — with
an invalid stored manual coupon and a validating auto coupon present,
the computation ends with the auto coupon's code stored (and, as it
happens, its usage incremented twice by the doubled re-evaluation), not
with an absent code. -/
theorem stale_coupon_clear_then_refill :
    (validateCoupon
        ⟨[⟨20, "D", .FIXED, 5, none, none, some 100000, none, none, 1, 0, false⟩,
          ⟨4, "AUTO5", .FIXED, 5, none, none, none, none, none, 0, 0, true⟩],
          [], 0⟩
        ⟨20, "D", .FIXED, 5, none, none, some 100000, none, none, 1, 0, false⟩
        [⟨1, "P", 5000, 1⟩]).valid = false ∧
    (calculateCartTotal
        ⟨[⟨20, "D", .FIXED, 5, none, none, some 100000, none, none, 1, 0, false⟩,
          ⟨4, "AUTO5", .FIXED, 5, none, none, none, none, none, 0, 0, true⟩],
          [], 0⟩
        [] ⟨1, "u", some "D", [⟨1, "P", 5000, 1⟩]⟩).cart.appliedCouponCode =
      some "AUTO5" ∧
    some "AUTO5" ≠ (none : Option String) := by
  exact ⟨by decide, by decide, by decide⟩

/-! ## Repeated apply of the same code (C9) -/

lemma validateCoupon_valid_not_capped {env : Env} {c : Coupon}
    {items : List Item}
    (h : (validateCoupon env c items).valid = true) :
    capReached c.maxUses c.currentUses = false := by
  cases hcap : capReached c.maxUses c.currentUses with
  | false => rfl
  | true =>
    rw [validateCoupon] at h
    cases hexp : expired env c with
    | true => rw [hexp] at h; simp at h
    | false =>
      rw [hexp] at h
      rw [hcap] at h
      simp at h

lemma find?_map_code_preserving (l : List Coupon) (id : Nat)
    (f : Coupon → Coupon) (hf : ∀ x, (f x).code = x.code) (code : String) :
    (l.map (fun c => if c.id = id then f c else c)).find?
        (fun c => c.code = code) =
      (l.find? (fun c => c.code = code)).map
        (fun c => if c.id = id then f c else c) := by
  have hg : ∀ y : Coupon,
      ((if y.id = id then f y else y).code = code) ↔ (y.code = code) := by
    intro y
    by_cases hy : y.id = id <;> simp [hy, hf]
  induction l with
  | nil => rfl
  | cons x xs ih =>
    have hgx : (decide ((if x.id = id then f x else x).code = code)) =
        (decide (x.code = code)) := by
      by_cases hy : x.id = id <;> simp [hy, hf]
    by_cases hx : x.code = code
    · simp [List.find?_cons, hgx, hx]
    · simp [List.find?_cons, hgx, hx, ih]

lemma findCoupon_updateCoupon_incUse (env : Env) (id : Nat) (code : String) :
    findCoupon (updateCoupon env id incUse) code =
      (findCoupon env code).map (fun c => if c.id = id then incUse c else c) := by
  rw [findCoupon, findCoupon, updateCoupon]
  exact find?_map_code_preserving env.coupons id incUse (fun x => rfl) code

/-- C9 (amended): applying the code that is already stored on the cart,
with validation passing, no concurrent interference and the coupon still
validating after its increment, increments the coupon's usage counter by
exactly 1 with no compensating decrement (applyCoupon decrements the old
coupon only when its code differs from the new one), and the code stays
applied.  (When the increment exhausts `maxUses`, the recompute that
applyCoupon triggers invalidates the coupon, decrements the counter back
and clears the code — see the counterexample.) -/
theorem reapply_same_code_increments_again (env : Env) (cart : Cart)
    (code : String) (c : Coupon)
    (h1 : cart.appliedCouponCode = some code)
    (h2 : findCoupon env code = some c)
    (h2b : findCouponById env c.id = some c)
    (h3 : c.autoApply = false)
    (h4 : (validateCoupon env c cart.items).valid = true)
    (h6 : (validateCoupon (updateCoupon env c.id incUse) (incUse c)
      cart.items).valid = true) :
    (applyCoupon env [] cart code).toOption.map
        (fun r => (r.env, r.cart.appliedCouponCode)) =
      some (updateCoupon env c.id incUse, some code) ∧
    findCoupon (updateCoupon env c.id incUse) code = some (incUse c) ∧
    (incUse c).currentUses = c.currentUses + 1 := by
  have hfind2 : findCoupon (updateCoupon env c.id incUse) code =
      some (incUse c) := by
    rw [findCoupon_updateCoupon_incUse, h2]
    simp
  refine ⟨?_, hfind2, rfl⟩
  have hr : incrementCouponUsage env c.id [] =
      (true, updateCoupon env c.id incUse, []) := by
    simp only [incrementCouponUsage, h2b]
    rw [validateCoupon_valid_not_capped h4]
    rfl
  rw [applyCoupon, h2]
  simp only [h4, hr, h1, ne_eq, eq_self_iff_true, not_true_eq_false,
    not_true, Bool.false_eq_true, if_false, not_false_eq_true, if_true]
  rw [getCart, calcTotal_manual_active (updateCoupon env c.id incUse) []
    ⟨cart.id, cart.userId, some code, cart.items⟩ code (incUse c) rfl hfind2
    h3 h6]
  rfl

/-- C9 witness instance: re-applying the already-stored manual FIXED-5
coupon "C" (no maxUses) bumps its usage from 0 to 1 and keeps it
applied. -/
theorem reapply_same_code_increments_again_witness :
    (applyCoupon
        ⟨[⟨30, "C", .FIXED, 5, none, none, none, none, none, 0, 0, false⟩],
          [], 0⟩
        [] ⟨1, "u", some "C", [⟨1, "P", 5000, 1⟩]⟩ "C").toOption.map
        (fun r => (r.env, r.cart.appliedCouponCode)) =
      some (updateCoupon
        ⟨[⟨30, "C", .FIXED, 5, none, none, none, none, none, 0, 0, false⟩],
          [], 0⟩ 30 incUse, some "C") ∧
    findCoupon
        (updateCoupon
          ⟨[⟨30, "C", .FIXED, 5, none, none, none, none, none, 0, 0, false⟩],
            [], 0⟩ 30 incUse) "C" =
      some (incUse
        ⟨30, "C", .FIXED, 5, none, none, none, none, none, 0, 0, false⟩) ∧
    (incUse ⟨30, "C", .FIXED, 5, none, none, none, none, none, 0, 0,
      false⟩).currentUses =
      (⟨30, "C", .FIXED, 5, none, none, none, none, none, 0, 0,
        false⟩ : Coupon).currentUses + 1 :=
  reapply_same_code_increments_again
    ⟨[⟨30, "C", .FIXED, 5, none, none, none, none, none, 0, 0, false⟩], [], 0⟩
    ⟨1, "u", some "C", [⟨1, "P", 5000, 1⟩]⟩ "C"
    ⟨30, "C", .FIXED, 5, none, none, none, none, none, 0, 0, false⟩
    rfl (by decide) (by decide) rfl (by decide) (by decide)

/-- C9 counterexample: re-applying the stored coupon "C" with
`maxUses = 1`, `currentUses = 0`: validation and the usage increment both
succeed, yet the call returns with the counter back at 0 (not 0 + 1) and
the code cleared — the recompute inside applyCoupon sees
`currentUses >= maxUses`, invalidates the coupon, decrements it and
clears the stored code. -/
theorem reapply_at_cap_nets_zero :
    (validateCoupon
        ⟨[⟨30, "C", .FIXED, 5, none, none, none, none, some 1, 0, 0, false⟩],
          [], 0⟩
        ⟨30, "C", .FIXED, 5, none, none, none, none, some 1, 0, 0, false⟩
        [⟨1, "P", 5000, 1⟩]).valid = true ∧
    (incrementCouponUsage
        ⟨[⟨30, "C", .FIXED, 5, none, none, none, none, some 1, 0, 0, false⟩],
          [], 0⟩ 30 []).fst = true ∧
    (applyCoupon
        ⟨[⟨30, "C", .FIXED, 5, none, none, none, none, some 1, 0, 0, false⟩],
          [], 0⟩
        [] ⟨1, "u", some "C", [⟨1, "P", 5000, 1⟩]⟩ "C").toOption.map
        (fun r => (r.cart.appliedCouponCode,
          r.env.coupons.map (fun k => k.currentUses))) =
      some (none, [0]) ∧
    ¬ ((0 : Int) = 0 + 1) := by
  exact ⟨by decide, by decide, by decide, by decide⟩

/-! ## Totals invariant (C4) -/

lemma foldl_subtotal_nonneg (items : List Item) (acc : Int)
    (h : itemsNonNeg items) (hacc : 0 ≤ acc) :
    0 ≤ items.foldl (fun a it => a + it.priceCents * it.quantity) acc := by
  induction items generalizing acc with
  | nil => exact hacc
  | cons x xs ih =>
    have hx := h x (List.mem_cons_self x xs)
    refine ih _ (fun it hit => h it (List.mem_cons_of_mem _ hit)) ?_
    have hprod : 0 ≤ x.priceCents * x.quantity := mul_nonneg hx.1 hx.2
    show 0 ≤ acc + x.priceCents * x.quantity
    omega

lemma subtotalOf_nonneg {items : List Item} (h : itemsNonNeg items) :
    0 ≤ subtotalOf items :=
  foldl_subtotal_nonneg items 0 h (le_refl 0)

lemma calculateDiscount_nonneg {c : Coupon} {s : Int}
    (hc : couponNonNeg c) (hs : 0 ≤ s) : 0 ≤ calculateDiscount c s := by
  rw [calculateDiscount.eq_def]
  cases hty : c.discountType with
  | FIXED =>
    have : (0 : Rat) ≤ c.discountValue * 100 :=
      mul_nonneg hc.1 (by norm_num)
    exact Int.floor_nonneg.mpr this
  | PERCENTAGE =>
    have hbase : (0 : Rat) ≤ (s : Rat) * (c.discountValue / 100) :=
      mul_nonneg (by exact_mod_cast hs) (div_nonneg hc.1 (by norm_num))
    cases hm : c.maxDiscountCents with
    | none => exact Int.floor_nonneg.mpr hbase
    | some m =>
      have hm0 : (0 : Int) ≤ m := by
        have h2 := hc.2
        rw [hm] at h2
        simpa using h2
      exact le_min (Int.floor_nonneg.mpr hbase) hm0

lemma calculateCouponDiscount_nonneg {c : Coupon} {s : Int}
    (hc : couponNonNeg c) (hs : 0 ≤ s) :
    0 ≤ calculateCouponDiscount c s :=
  le_min (calculateDiscount_nonneg hc hs) hs

lemma envNonNeg_updateCoupon {env : Env} {id : Nat} {f : Coupon → Coupon}
    (h : envNonNeg env) (hf : ∀ c, couponNonNeg c → couponNonNeg (f c)) :
    envNonNeg (updateCoupon env id f) := by
  intro c hc
  rw [updateCoupon] at hc
  obtain ⟨x, hx, hgx⟩ := List.mem_map.mp hc
  subst hgx
  by_cases hxid : x.id = id
  · simpa [hxid] using hf x (h x hx)
  · simpa [hxid] using h x hx

lemma couponNonNeg_incUse {c : Coupon} (h : couponNonNeg c) :
    couponNonNeg (incUse c) := h

lemma couponNonNeg_decUse {c : Coupon} (h : couponNonNeg c) :
    couponNonNeg (decUse c) := h

lemma envNonNeg_dec {env : Env} {id : Nat} (h : envNonNeg env) :
    envNonNeg (decrementCouponUsage env id) :=
  envNonNeg_updateCoupon h (fun _ hc => couponNonNeg_decUse hc)

lemma envNonNeg_inc_result {env : Env} {id : Nat} {oracle : List Bool}
    (h : envNonNeg env) :
    envNonNeg (incrementCouponUsage env id oracle).snd.fst := by
  cases hf : findCouponById env id with
  | none => simp only [incrementCouponUsage, hf]; exact h
  | some c =>
    simp only [incrementCouponUsage, hf]
    split
    · exact h
    · split
      · exact h
      · exact envNonNeg_updateCoupon h (fun _ hc => couponNonNeg_incUse hc)

lemma findCoupon_mem {env : Env} {code : String} {c : Coupon}
    (h : findCoupon env code = some c) : c ∈ env.coupons := by
  rw [findCoupon] at h
  exact List.mem_of_find?_eq_some h

lemma findBestAutoCoupon_mem {env : Env} {items : List Item} {r : Coupon}
    (h : findBestAutoCoupon env items = some r) : r ∈ env.coupons := by
  have hg := @bestLoop_good env items (subtotalOf items)
    (env.coupons.filter (fun c => c.autoApply)) (none, -1)
    (fun c hc => ⟨(List.mem_filter.mp hc).1, (List.mem_filter.mp hc).2⟩)
    (by intro b hb; simp at hb)
  rw [findBestAutoCoupon] at h
  exact (hg r h).1

lemma autoPhase_nonneg {env : Env} {oracle : List Bool} {items : List Item}
    {sub : Int} {snap db : Option String} {active : Option Coupon}
    {ac : Option String} (henv : envNonNeg env)
    (hact : ∀ c, active = some c → couponNonNeg c) :
    envNonNeg (autoPhase env oracle items sub snap db active ac).env ∧
    (∀ c, (autoPhase env oracle items sub snap db active ac).active = some c →
      couponNonNeg c) := by
  cases hb : findBestAutoCoupon env items with
  | none =>
    rw [autoPhase_best_none hb]
    split
    · exact ⟨henv, hact⟩
    · exact ⟨henv, hact⟩
  | some b =>
    have hbNon : couponNonNeg b := henv b (findBestAutoCoupon_mem hb)
    rw [autoPhase.eq_def, hb]
    cases active with
    | none =>
      dsimp only
      split
      · split
        · split
          · exact ⟨envNonNeg_inc_result henv,
              fun c hc => by dsimp only at hc; cases hc; exact hbNon⟩
          · exact ⟨envNonNeg_inc_result henv,
              fun c hc => by dsimp only at hc; cases hc⟩
        · exact ⟨henv, hact⟩
      · exact ⟨henv, hact⟩
    | some a =>
      dsimp only
      split
      · split
        · split
          · split
            · exact ⟨envNonNeg_inc_result (envNonNeg_dec henv),
                fun c hc => by dsimp only at hc; cases hc; exact hbNon⟩
            · exact ⟨envNonNeg_inc_result (envNonNeg_dec henv),
                fun c hc => by dsimp only at hc; cases hc; exact hact a rfl⟩
          · split
            · exact ⟨envNonNeg_inc_result henv,
                fun c hc => by dsimp only at hc; cases hc; exact hbNon⟩
            · exact ⟨envNonNeg_inc_result henv,
                fun c hc => by dsimp only at hc; cases hc; exact hact a rfl⟩
        · exact ⟨henv, hact⟩
      · exact ⟨henv, hact⟩

lemma reconcileStored_nonneg {env : Env} {oracle : List Bool} {cart : Cart}
    (henv : envNonNeg env) :
    envNonNeg (reconcileStored env oracle cart).env ∧
    (∀ c, (reconcileStored env oracle cart).active = some c →
      couponNonNeg c) := by
  rw [reconcileStored.eq_def]
  split
  · exact ⟨henv, by intro c hc; simp at hc⟩
  · split
    · exact ⟨henv, by intro c hc; simp at hc⟩
    · next c hfind =>
      split
      · refine ⟨henv, ?_⟩
        intro d hd
        dsimp only at hd
        cases hd
        exact henv c (findCoupon_mem hfind)
      · refine ⟨(autoPhase_nonneg (envNonNeg_dec henv)
          (by intro d hd; simp at hd)).1, ?_⟩
        intro d hd
        simp at hd

lemma calcOut_nonneg {env : Env} {oracle : List Bool} {cart : Cart}
    (henv : envNonNeg env) :
    envNonNeg (calcOut env oracle cart).env ∧
    (∀ c, (calcOut env oracle cart).active = some c → couponNonNeg c) := by
  have hrec := @reconcileStored_nonneg env oracle cart henv
  rw [calcOut]
  split
  · exact hrec
  · exact autoPhase_nonneg hrec.1 hrec.2

lemma discountOf_bounds {sub : Int} (hsub : 0 ≤ sub)
    (active : Option Coupon)
    (hgood : ∀ c, active = some c → couponNonNeg c) :
    0 ≤ discountOf active sub ∧ discountOf active sub ≤ sub := by
  cases active with
  | none => exact ⟨le_refl 0, hsub⟩
  | some c =>
    exact ⟨calculateCouponDiscount_nonneg (hgood c rfl) hsub,
      min_le_right _ _⟩

lemma calcTotal_TotalsOk {env : Env} {oracle : List Bool} {cart : Cart}
    (henv : envNonNeg env) (hitems : itemsNonNeg cart.items) :
    TotalsOk (calculateCartTotal env oracle cart) := by
  have hb := discountOf_bounds (subtotalOf_nonneg hitems)
    (calcOut env oracle cart).active
    (@calcOut_nonneg env oracle cart henv).2
  exact ⟨rfl, hb.1, hb.2⟩

lemma itemsNonNeg_filter {items : List Item} (p : Item → Bool)
    (h : itemsNonNeg items) : itemsNonNeg (items.filter p) :=
  fun it hit => h it (List.mem_of_mem_filter hit)

lemma itemsNonNeg_setq {items : List Item} {pid : Nat} {q : Int}
    (h : itemsNonNeg items) (hq : 0 ≤ q) :
    itemsNonNeg (items.map (fun it =>
      if it.productId = pid then { it with quantity := q } else it)) := by
  intro it hit
  obtain ⟨x, hx, hgx⟩ := List.mem_map.mp hit
  subst hgx
  by_cases hxp : x.productId = pid
  · simp only [hxp, if_true]
    exact ⟨(h x hx).1, hq⟩
  · simp only [hxp, if_false]
    exact h x hx

lemma itemsNonNeg_addq {items : List Item} {pid : Nat} {q : Int}
    (h : itemsNonNeg items) (hq : 0 ≤ q) :
    itemsNonNeg (items.map (fun it =>
      if it.productId = pid then { it with quantity := it.quantity + q }
      else it)) := by
  intro it hit
  obtain ⟨x, hx, hgx⟩ := List.mem_map.mp hit
  subst hgx
  by_cases hxp : x.productId = pid
  · simp only [hxp, if_true]
    exact ⟨(h x hx).1, by have := (h x hx).2; omega⟩
  · simp only [hxp, if_false]
    exact h x hx

lemma itemsNonNeg_append_one {items : List Item} {pid : Nat} {nm : String}
    {pr q : Int} (h : itemsNonNeg items) (hpr : 0 ≤ pr) (hq : 0 ≤ q) :
    itemsNonNeg (items ++ [⟨pid, nm, pr, q⟩]) := by
  intro it hit
  rcases List.mem_append.mp hit with hl | hr
  · exact h it hl
  · have : it = ⟨pid, nm, pr, q⟩ := by simpa using hr
    subst this
    exact ⟨hpr, hq⟩

/-- C4: for every cart-totals result returned by a cart read or mutation
— `getCart` (getCartTotals), `addItem`, `updateItem`, `removeItem`,
`applyCoupon`, `removeCoupon` — the response satisfies
`finalTotalCents = subtotalCents - discountCents` and
`0 ≤ discountCents ≤ subtotalCents` (so the final total is never
negative), provided the store holds well-formed coupons (non-negative
discount values and caps) and the cart holds well-formed items
(non-negative prices and quantities; for `addItem` the added price and
quantity are assumed non-negative as well). -/
theorem cart_totals_never_negative (env : Env) (oracle : List Bool)
    (cart : Cart) (henv : envNonNeg env) (hitems : itemsNonNeg cart.items) :
    TotalsOk (getCart env oracle cart) ∧
    (∀ (pid : Nat) (nm : String) (pr q : Int), 0 ≤ pr → 0 ≤ q →
      TotalsOk (addItem env oracle cart pid nm pr q)) ∧
    (∀ (pid : Nat) (q : Int) (r : OpResult),
      updateItem env oracle cart pid q = .ok r → TotalsOk r) ∧
    (∀ pid : Nat, TotalsOk (removeItem env oracle cart pid)) ∧
    (∀ (code : String) (r : OpResult),
      applyCoupon env oracle cart code = .ok r → TotalsOk r) ∧
    TotalsOk (removeCoupon env oracle cart) := by
  have hremove : ∀ pid : Nat, TotalsOk (removeItem env oracle cart pid) := by
    intro pid
    exact calcTotal_TotalsOk henv (itemsNonNeg_filter _ hitems)
  refine ⟨calcTotal_TotalsOk henv hitems, ?_, ?_, hremove, ?_, ?_⟩
  · intro pid nm pr q hpr hq
    rw [addItem, getCart]
    by_cases hex : cart.items.any (fun it => it.productId = pid)
    · simp only [hex, if_true]
      exact calcTotal_TotalsOk henv (itemsNonNeg_addq hitems hq)
    · simp only [hex, Bool.false_eq_true, if_false]
      exact calcTotal_TotalsOk henv (itemsNonNeg_append_one hitems hpr hq)
  · intro pid q r hr
    rw [updateItem] at hr
    by_cases hq : q ≤ 0
    · rw [if_pos hq, Except.ok.injEq] at hr
      subst hr
      exact hremove pid
    · rw [if_neg hq] at hr
      by_cases hex : cart.items.any (fun it => it.productId = pid)
      · rw [if_pos hex, Except.ok.injEq] at hr
        subst hr
        exact calcTotal_TotalsOk henv (itemsNonNeg_setq hitems (by omega))
      · rw [if_neg hex] at hr
        exact absurd hr (by simp)
  · intro code r hr
    rw [applyCoupon] at hr
    cases hf : findCoupon env code with
    | none => rw [hf] at hr; exact absurd hr (by simp)
    | some coupon =>
      rw [hf] at hr
      dsimp only at hr
      by_cases hv : (validateCoupon env coupon cart.items).valid = true
      · rw [if_neg (by simp [hv])] at hr
        by_cases hs : (incrementCouponUsage env coupon.id oracle).fst = true
        · rw [if_neg (by simp [hs]), Except.ok.injEq] at hr
          subst hr
          have henv1 : envNonNeg (incrementCouponUsage env coupon.id
              oracle).snd.fst := envNonNeg_inc_result henv
          have henv2 : envNonNeg (match cart.appliedCouponCode with
              | some old =>
                if old ≠ code then
                  match findCoupon (incrementCouponUsage env coupon.id
                      oracle).snd.fst old with
                  | some oldCoupon =>
                    decrementCouponUsage (incrementCouponUsage env coupon.id
                      oracle).snd.fst oldCoupon.id
                  | none => (incrementCouponUsage env coupon.id oracle).snd.fst
                else (incrementCouponUsage env coupon.id oracle).snd.fst
              | none => (incrementCouponUsage env coupon.id oracle).snd.fst) := by
            cases cart.appliedCouponCode with
            | none => exact henv1
            | some old =>
              dsimp only
              split
              · cases hfo : findCoupon (incrementCouponUsage env coupon.id
                    oracle).snd.fst old with
                | none => simpa [hfo] using henv1
                | some oldCoupon =>
                  simpa [hfo] using @envNonNeg_dec ((incrementCouponUsage env coupon.id oracle).snd.fst) oldCoupon.id henv1
              · exact henv1
          exact calcTotal_TotalsOk henv2 hitems
        · rw [if_pos (by simp [hs])] at hr
          exact absurd hr (by simp)
      · rw [if_pos (by simp [hv])] at hr
        exact absurd hr (by simp)
  · rw [removeCoupon]
    cases hcc : cart.appliedCouponCode with
    | none => exact calcTotal_TotalsOk henv hitems
    | some old =>
      dsimp only
      cases hfo : findCoupon env old with
      | none =>
        simpa [hfo] using @calcTotal_TotalsOk env oracle
          ⟨cart.id, cart.userId, none, cart.items⟩ henv hitems
      | some oldCoupon =>
        simpa [hfo] using @calcTotal_TotalsOk
          (decrementCouponUsage env oldCoupon.id) oracle
          ⟨cart.id, cart.userId, none, cart.items⟩
          (@envNonNeg_dec env oldCoupon.id henv) hitems

/-- C4 witness instance: a store with one FIXED-20 coupon applied to a
5000-cent cart; read, add-item and remove-coupon responses all satisfy
the totals invariant. -/
theorem cart_totals_never_negative_witness :
    TotalsOk (getCart
      ⟨[⟨1, "M", .FIXED, 20, none, none, none, none, none, 1, 1, false⟩], [], 0⟩
      [] ⟨1, "u", some "M", [⟨1, "P", 5000, 1⟩]⟩) ∧
    TotalsOk (addItem
      ⟨[⟨1, "M", .FIXED, 20, none, none, none, none, none, 1, 1, false⟩], [], 0⟩
      [] ⟨1, "u", some "M", [⟨1, "P", 5000, 1⟩]⟩ 2 "Q" 100 3) ∧
    TotalsOk (removeCoupon
      ⟨[⟨1, "M", .FIXED, 20, none, none, none, none, none, 1, 1, false⟩], [], 0⟩
      [] ⟨1, "u", some "M", [⟨1, "P", 5000, 1⟩]⟩) :=
  ⟨(cart_totals_never_negative
      ⟨[⟨1, "M", .FIXED, 20, none, none, none, none, none, 1, 1, false⟩], [], 0⟩
      [] ⟨1, "u", some "M", [⟨1, "P", 5000, 1⟩]⟩ (by intro c hc; simp at hc; subst hc; exact ⟨by norm_num, by norm_num⟩) (by intro it hh; simp at hh; subst hh; exact ⟨by norm_num, by norm_num⟩)).1,
    (cart_totals_never_negative
      ⟨[⟨1, "M", .FIXED, 20, none, none, none, none, none, 1, 1, false⟩], [], 0⟩
      [] ⟨1, "u", some "M", [⟨1, "P", 5000, 1⟩]⟩ (by intro c hc; simp at hc; subst hc; exact ⟨by norm_num, by norm_num⟩) (by intro it hh; simp at hh; subst hh; exact ⟨by norm_num, by norm_num⟩)).2.1
      2 "Q" 100 3 (by norm_num) (by norm_num),
    (cart_totals_never_negative
      ⟨[⟨1, "M", .FIXED, 20, none, none, none, none, none, 1, 1, false⟩], [], 0⟩
      [] ⟨1, "u", some "M", [⟨1, "P", 5000, 1⟩]⟩ (by intro c hc; simp at hc; subst hc; exact ⟨by norm_num, by norm_num⟩)
      (by intro it hh; simp at hh; subst hh; exact ⟨by norm_num, by norm_num⟩)).2.2.2.2.2⟩

end CCS
